import Mathlib

/-!
# Verification of the xcprobe collection/analysis pipeline

Shallow embedding of the parts of the `xcprobe` Rust workspace that the
specification's claims are about:

* `crates/probe-cli/src/commands.rs` — allow-listed command builders and
  their injection sanitisation,
* `crates/redaction` — the secret redactor (pattern stage + entropy stage),
* `crates/analyzer` — scoring, clustering, dependency inference, startup
  DAG, and per-cluster confidence,
* `crates/probe-cli/src/bundle.rs` — bundle write/read and validation,
* `crates/bundle-schema/src/validation.rs` — manifest/bundle validation,
* `crates/probe-cli/src/parsers.rs` and `collector.rs` — the Linux
  service-detail and unit-file parsers and their merge.

Modelling conventions:

* Rust `f64` score/confidence arithmetic is modelled over `ℚ`; the values
  involved are small decimal literals combined by `+`, `*`, `/`, `max`, so
  the algebraic structure of interest is preserved.
* Rust `String`/`&str` are modelled by Lean `String` (content) with byte
  lengths computed through `Char.utf8Size`; `contains`/`starts_with` are
  modelled on the character lists, which agrees with Rust's byte-based
  search for the ASCII needles used throughout this code base.
* Rust `HashMap` iteration order is unspecified; functions that iterate a
  map take the iteration sequence as an explicit argument, and lookups are
  association-list lookups.
* `chrono` timestamps and UUIDs are opaque data and are modelled by `Nat`
  or `String` fields where a claim needs them.
-/

set_option maxRecDepth 8000
set_option maxHeartbeats 1000000

namespace XCProbe

/-! ## String primitives -/

/-- Byte length of a string, as Rust's `str::len` computes it (UTF-8). -/
def utf8Len (s : String) : Nat := s.data.foldl (fun n c => n + c.utf8Size) 0

/-- `listIsPrefixOf n h`: `n` is a prefix of `h` (Rust `str::starts_with`). -/
def listIsPrefixOf : List Char → List Char → Bool
  | [], _ => true
  | _ :: _, [] => false
  | a :: as, b :: bs => a == b && listIsPrefixOf as bs

/-- `subList n h`: `n` occurs as a contiguous substring of `h`
(Rust `str::contains`; for ASCII needles byte search and character search
coincide). -/
def subList (n : List Char) : List Char → Bool
  | [] => n.isEmpty
  | h :: t => listIsPrefixOf n (h :: t) || subList n t

/-- Rust `str::starts_with` on our string model. -/
def strStartsWith (h p : String) : Bool := listIsPrefixOf p.data h.data

/-- Rust `str::contains` on our string model. -/
def strContainsStr (h n : String) : Bool := subList n.data h.data

/-- Rust `str::to_lowercase`, restricted to the per-character ASCII case
map (`Char.toLower`); the needles compared against lowercased text in this
code base are all ASCII, for which this agrees with Rust. -/
def toLowerStr (s : String) : String := ⟨s.data.map Char.toLower⟩

theorem listIsPrefixOf_refl_append (n b : List Char) :
    listIsPrefixOf n (n ++ b) = true := by
  induction n with
  | nil => rfl
  | cons a as ih => simp [listIsPrefixOf, ih]

theorem subList_append_left (n x h : List Char) (hs : subList n h = true) :
    subList n (x ++ h) = true := by
  induction x with
  | nil => simpa using hs
  | cons a as ih =>
    simp only [List.cons_append, subList]
    cases hp : listIsPrefixOf n (a :: (as ++ h)) with
    | true => simp
    | false => simpa using ih

theorem subList_of_middle (n a b : List Char) :
    subList n (a ++ (n ++ b)) = true := by
  apply subList_append_left
  cases n with
  | nil => cases b <;> simp [subList, listIsPrefixOf, List.isEmpty]
  | cons c cs =>
    have h := listIsPrefixOf_refl_append (c :: cs) b
    simp only [List.cons_append] at h
    simp [subList, h]

/-! ## Data model: decisions and confidence
(`crates/bundle-schema/src/packplan.rs`, `crates/analyzer/src/confidence.rs`) -/

/-- A recorded inference (`Decision` in `packplan.rs`). -/
structure Decision where
  decision : String
  reason : String
  evidence_refs : List String
  confidence : ℚ
  deriving Repr, DecidableEq

/-- Weight given to one decision by `calculate_cluster_confidence`:
`0.5` when `evidence_refs` is empty, else `1.0`. -/
def decisionWeight (d : Decision) : ℚ :=
  if d.evidence_refs.isEmpty then 1/2 else 1

/-- `calculate_cluster_confidence` (`confidence.rs` lines 36–73), as a pure
function of the decision list: weighted average of decision confidences,
multiplied by `0.5 + 0.5 * evidence_ratio`; `0` for an empty list. -/
def clusterConfidence (decisions : List Decision) : ℚ :=
  if decisions.isEmpty then 0
  else
    let totals := decisions.foldl
      (fun (acc : ℚ × ℚ) d =>
        let w := decisionWeight d
        (acc.1 + d.confidence * w, acc.2 + w)) (0, 0)
    let base := if totals.2 > 0 then totals.1 / totals.2 else 0
    let evidenceRatio : ℚ :=
      ((decisions.filter (fun d => !d.evidence_refs.isEmpty)).length : ℚ) /
        (decisions.length : ℚ)
    base * (1/2 + evidenceRatio * (1/2))

theorem confidence_foldl_eq (ds : List Decision) (tc tw : ℚ) :
    ds.foldl (fun (acc : ℚ × ℚ) d =>
        (acc.1 + d.confidence * decisionWeight d, acc.2 + decisionWeight d))
      (tc, tw) =
    (tc + (ds.map (fun d => d.confidence * decisionWeight d)).sum,
     tw + (ds.map decisionWeight).sum) := by
  induction ds generalizing tc tw with
  | nil => simp
  | cons d t ih => simp [List.foldl_cons, ih]; constructor <;> ring

theorem weights_sum_pos (ds : List Decision) (h : ds ≠ []) :
    0 < (ds.map decisionWeight).sum := by
  cases ds with
  | nil => exact absurd rfl h
  | cons d t =>
    have hw : ∀ x ∈ (t.map decisionWeight), (0:ℚ) ≤ x := by
      intro x hx
      rcases List.mem_map.mp hx with ⟨e, _, rfl⟩
      unfold decisionWeight; split <;> norm_num
    have ht : (0:ℚ) ≤ (t.map decisionWeight).sum := List.sum_nonneg hw
    have hd : (0:ℚ) < decisionWeight d := by
      unfold decisionWeight; split <;> norm_num
    simp only [List.map_cons, List.sum_cons]
    linarith

/-- **C6.** For every cluster, `calculate_cluster_confidence` sets confidence to
the weighted mean of the decisions' confidence values with weight 1.0 for
decisions having non-empty `evidence_refs` and 0.5 otherwise, multiplied by
`0.5 + 0.5·r` where `r` is the fraction of decisions with non-empty
`evidence_refs`; a cluster with zero decisions gets confidence exactly 0. -/
theorem C6_cluster_confidence_formula (ds : List Decision) :
    (ds = [] → clusterConfidence ds = 0) ∧
    (ds ≠ [] →
      clusterConfidence ds =
        ((ds.map (fun d => d.confidence * decisionWeight d)).sum /
            (ds.map decisionWeight).sum) *
          (1/2 +
            (((ds.filter (fun d => !d.evidence_refs.isEmpty)).length : ℚ) /
                (ds.length : ℚ)) * (1/2))) := by
  constructor
  · intro h; subst h; rfl
  · intro h
    have hpos := weights_sum_pos ds h
    have hf := confidence_foldl_eq ds 0 0
    simp only [zero_add] at hf
    unfold clusterConfidence
    rw [if_neg (by simpa [List.isEmpty_iff] using h)]
    simp only [hf, if_pos hpos]

/-- Witness for C6 at concrete inputs: two decisions (one with evidence at
confidence 0.9, one without at 0.6) yield `0.6`, and no decisions yield `0`. -/
theorem C6_cluster_confidence_formula_witness :
    clusterConfidence
        [⟨"a", "r", ["e1"], 9/10⟩, ⟨"b", "r", [], 3/5⟩] = 3/5 ∧
    clusterConfidence [] = 0 := by
  refine ⟨?_, (C6_cluster_confidence_formula []).1 rfl⟩
  refine ((C6_cluster_confidence_formula
    [⟨"a", "r", ["e1"], 9/10⟩, ⟨"b", "r", [], 3/5⟩]).2 (by simp)).trans ?_
  norm_num [decisionWeight]

/-! ## Command catalogue sanitisation (`crates/probe-cli/src/commands.rs`) -/

/-- Models Rust `char::is_alphanumeric` (Unicode Alphabetic or numeric).
The table is exact for code points below `0x100`: ASCII alphanumerics plus
the Latin-1 letters `À–Ö`, `Ø–ö`, `ø–ÿ`, the ordinal indicators ª/º, the
micro sign µ, the superscripts ¹²³ and the vulgar fractions ¼½¾.  Code
points at or above `0x100` are not modelled (the function returns `false`
there); every theorem below evaluates it only below `0x100`. -/
def rustIsAlphanumeric (c : Char) : Bool :=
  let v := c.val
  (48 ≤ v && v ≤ 57) || (65 ≤ v && v ≤ 90) || (97 ≤ v && v ≤ 122) ||
  v == 0xAA || v == 0xB5 || v == 0xBA ||
  v == 0xB2 || v == 0xB3 || v == 0xB9 ||
  (0xBC ≤ v && v ≤ 0xBE) ||
  (0xC0 ≤ v && v ≤ 0xD6) || (0xD8 ≤ v && v ≤ 0xF6) || (0xF8 ≤ v && v ≤ 0xFF)

/-- `is_safe_service_name` (`commands.rs` lines 243–248): every character is
alphanumeric or one of `-`, `_`, `.`, `@`; non-empty; byte length `< 256`. -/
def is_safe_service_name (name : String) : Bool :=
  name.data.all
      (fun c => rustIsAlphanumeric c || c == '-' || c == '_' || c == '.' || c == '@')
    && !name.data.isEmpty
    && decide (utf8Len name < 256)

/-- `LinuxCommands::service_show_cmd` (`commands.rs` lines 91–97). -/
def service_show_cmd (name : String) : Option String :=
  if !is_safe_service_name name then none
  else some ("systemctl show " ++ name ++ " --no-pager")

/-- **C7 counterexample.** The claim states `service_show_cmd` returns a
command only for names consisting of characters from `[A-Za-z0-9._@-]`.
The name `"é"` is outside that class, yet the builder returns a command:
`is_safe_service_name` accepts every Unicode alphanumeric character. -/
theorem C7_counterexample :
    (service_show_cmd "é").isSome = true ∧
    ¬ (∀ c ∈ ("é" : String).data,
        (c.isAlphanum || c == '.' || c == '_' || c == '@' || c == '-') = true) := by
  constructor
  · decide
  · intro h
    have := h 'é' (by decide)
    simp at this

/-- **C7 (amended).** The Linux `service_show_cmd` builder returns Some
command exactly when the name is non-empty, has byte length below 256, and
consists only of Unicode-alphanumeric characters (not merely ASCII) and
`-`, `_`, `.`, `@`; consequently any name containing a shell metacharacter
(`;`, `|`, `&`, `$`, backtick) or whitespace yields no command. -/
theorem C7_service_show_cmd_safe (name : String) :
    ((service_show_cmd name).isSome = true ↔
      (name.data ≠ [] ∧ utf8Len name < 256 ∧
        ∀ c ∈ name.data,
          (rustIsAlphanumeric c || c == '-' || c == '_' || c == '.' || c == '@')
            = true)) ∧
    (∀ bad, bad ∈ [';', '|', '&', '$', Char.ofNat 96, ' ', '\t', '\n'] →
      bad ∈ name.data → service_show_cmd name = none) := by
  have key : (service_show_cmd name).isSome = is_safe_service_name name := by
    unfold service_show_cmd
    cases h : is_safe_service_name name <;> simp [h]
  have key2 : is_safe_service_name name = true ↔
      (name.data ≠ [] ∧ utf8Len name < 256 ∧
        ∀ c ∈ name.data,
          (rustIsAlphanumeric c || c == '-' || c == '_' || c == '.' || c == '@')
            = true) := by
    unfold is_safe_service_name
    constructor
    · intro h
      simp only [Bool.and_eq_true] at h
      obtain ⟨⟨h1, h2⟩, h3⟩ := h
      refine ⟨?_, by simpa using h3, by simpa [List.all_eq_true] using h1⟩
      intro hnil
      rw [hnil] at h2
      simp at h2
    · rintro ⟨h1, h2, h3⟩
      simp only [Bool.and_eq_true]
      refine ⟨⟨?_, ?_⟩, by simpa⟩
      · simpa [List.all_eq_true] using h3
      · cases hd : name.data with
        | nil => exact absurd hd h1
        | cons a t => simp [hd]
  constructor
  · rw [key, key2]
  · intro bad hbad hmem
    have hfail : is_safe_service_name name = false := by
      rw [Bool.eq_false_iff]
      intro hcontra
      have hc := (key2.mp hcontra).2.2 bad hmem
      fin_cases hbad <;> revert hc <;> decide
    unfold service_show_cmd
    simp [hfail]

/-- Witness for C7 (amended): `"a;b"` (contains `;`) yields no command;
`"nginx"` yields one. -/
theorem C7_service_show_cmd_safe_witness :
    service_show_cmd "a;b" = none ∧ (service_show_cmd "nginx").isSome = true :=
  ⟨(C7_service_show_cmd_safe "a;b").2 ';' (by decide) (by decide),
   ((C7_service_show_cmd_safe "nginx").1).mpr
     ⟨by decide, by decide, by decide⟩⟩

/-! ## Manifest data model (`crates/bundle-schema/src/manifest.rs`)

Fields that none of the verified code reads (timestamps, cpu/memory
percentages, packages, scheduled tasks, network connections, log files,
collection mode, collection errors) are omitted from the embedding. -/

/-- `ProcessInfo` (`manifest.rs` lines 89–105). -/
structure ProcessInfo where
  pid : Nat
  ppid : Nat
  user : String
  command : String
  args : List String
  full_cmdline : String
  working_directory : Option String
  evidence_ref : Option String
  deriving Repr, DecidableEq

/-- `ServiceInfo` (`manifest.rs` lines 108–131).  The `environment`
`HashMap` is modelled as an association list in iteration order. -/
structure ServiceInfo where
  name : String
  description : Option String
  state : String
  sub_state : Option String
  exec_start : Option String
  working_directory : Option String
  user : Option String
  group : Option String
  environment : List (String × String)
  environment_files : List String
  unit_file_path : Option String
  main_pid : Option Nat
  evidence_ref : Option String
  deriving Repr, DecidableEq

/-- `PortInfo` (`manifest.rs` lines 134–144). -/
structure PortInfo where
  protocol : String
  local_address : String
  local_port : Nat
  state : String
  pid : Option Nat
  process_name : Option String
  evidence_ref : Option String
  deriving Repr, DecidableEq

/-- `FileInfo` (`manifest.rs` lines 186–200), for config files. -/
structure FileInfo where
  path : String
  size_bytes : Nat
  content_hash : Option String
  attachment_ref : Option String
  discovery_method : String
  deriving Repr, DecidableEq

/-- `EnvironmentFile` (`manifest.rs` lines 203–210). -/
structure EnvironmentFile where
  path : String
  variable_names : List String
  evidence_ref : Option String
  deriving Repr, DecidableEq

/-- `SystemInfo` (`manifest.rs` lines 77–86). -/
structure SystemInfo where
  hostname : String
  os_type : String
  os_version : Option String
  kernel_version : Option String
  architecture : Option String
  deriving Repr, DecidableEq

/-- `Manifest` (`manifest.rs` lines 17–51). -/
structure Manifest where
  schema_version : String
  collection_id : String
  system : SystemInfo
  processes : List ProcessInfo
  services : List ServiceInfo
  ports : List PortInfo
  config_files : List FileInfo
  environment_files : List EnvironmentFile
  deriving Repr, DecidableEq

/-! ## Process scoring (`crates/analyzer/src/scoring.rs`) -/

/-- Kernel-thread command prefixes (`scoring.rs` lines 29–39). -/
def system_prefixes : List String :=
  ["kworker", "migration", "ksoftirqd", "rcu_", "watchdog", "kthreadd",
   "kswapd", "khugepaged", "kcompactd"]

/-- Container/orchestration keywords (`scoring.rs` line 49). -/
def container_keywords : List String := ["docker", "containerd", "kubelet", "crio"]

/-- Known-application keywords (`scoring.rs` lines 59–62). -/
def service_keywords : List String :=
  ["nginx", "apache", "httpd", "java", "python", "node", "ruby", "php",
   "dotnet", "postgres", "mysql", "redis", "mongo", "rabbit", "kafka",
   "elastic"]

/-- The known-app keyword test of `score_processes`: lowercased command or
lowercased full command line contains one of the keywords. -/
def knownAppHit (p : ProcessInfo) : Bool :=
  service_keywords.any (fun k =>
    strContainsStr (toLowerStr p.command) k
      || strContainsStr (toLowerStr p.full_cmdline) k)

/-- The three sequential `score = …` assignments of `score_processes`
(lines 40–69): the last matching assignment wins, encoded here as a
first-match chain in the reverse order. -/
def scoreBase (p : ProcessInfo) : ℚ :=
  if knownAppHit p then 8/10
  else if container_keywords.any (fun k => strContainsStr p.command k) then 3/10
  else if system_prefixes.any (fun q => strStartsWith p.command q) then 1/10
  else 1/2

/-- Port-listener floor (`scoring.rs` lines 72–77). -/
def portFloor (m : Manifest) (p : ProcessInfo) (s : ℚ) : ℚ :=
  if m.ports.any (fun q => q.pid == some p.pid) then max s (7/10) else s

/-- Systemd-service floor (`scoring.rs` lines 80–85). -/
def serviceFloor (m : Manifest) (p : ProcessInfo) (s : ℚ) : ℚ :=
  m.services.foldl
    (fun s sv => if sv.main_pid == some p.pid then max s (8/10) else s) s

/-- Non-system-user bonus (`scoring.rs` lines 88–93). -/
def userBonus (p : ProcessInfo) (s : ℚ) : ℚ :=
  if p.user != "root" && !(["nobody", "daemon", "systemd-network"].contains p.user)
  then s + 1/10 else s

/-- Long-command-line bonus (`scoring.rs` lines 96–99). -/
def cmdlineBonus (p : ProcessInfo) (s : ℚ) : ℚ :=
  if 100 < utf8Len p.full_cmdline then s + 1/20 else s

/-- The score `score_processes` computes for one process. -/
def scoreVal (m : Manifest) (p : ProcessInfo) : ℚ :=
  cmdlineBonus p (userBonus p (serviceFloor m p (portFloor m p (scoreBase p))))

/-- `ProcessScore` (`scoring.rs` lines 8–14; the free-text `reasons` are
omitted). -/
structure ProcessScore where
  pid : Nat
  name : String
  score : ℚ
  is_business_process : Bool
  deriving Repr, DecidableEq

/-- One entry of the map built by `score_processes` (lines 20–116). -/
def scoreProcess (m : Manifest) (p : ProcessInfo) : ProcessScore :=
  { pid := p.pid, name := p.command, score := scoreVal m p,
    is_business_process := decide (3/5 ≤ scoreVal m p) }

/-- `score_processes` builds its `HashMap` by inserting one entry per
process, in manifest order; this is the insertion sequence. -/
def scoreProcesses (m : Manifest) : List (Nat × ProcessScore) :=
  m.processes.map (fun p => (p.pid, scoreProcess m p))

theorem scoreBase_le (p : ProcessInfo) : scoreBase p ≤ 8/10 := by
  unfold scoreBase
  split
  · exact le_refl _
  · split
    · norm_num
    · split <;> norm_num

theorem serviceFloor_mono (m : Manifest) (p : ProcessInfo) {s t : ℚ}
    (h : s ≤ t) : serviceFloor m p s ≤ serviceFloor m p t := by
  unfold serviceFloor
  induction m.services generalizing s t with
  | nil => simpa using h
  | cons sv rest ih =>
    simp only [List.foldl_cons]
    apply ih
    split
    · exact max_le_max h (le_refl _)
    · exact h

theorem foldl_utf8_shift (l : List Char) (n : Nat) :
    l.foldl (fun n c => n + c.utf8Size) n
      = n + l.foldl (fun n c => n + c.utf8Size) 0 := by
  induction l generalizing n with
  | nil => simp
  | cons c t ih =>
    simp only [List.foldl_cons]
    rw [ih (n + c.utf8Size), ih (0 + c.utf8Size)]
    omega

theorem utf8Len_append (a b : List Char) :
    utf8Len ⟨a ++ b⟩ = utf8Len ⟨a⟩ + utf8Len ⟨b⟩ := by
  show (a ++ b).foldl (fun n c => n + c.utf8Size) 0 = _
  rw [List.foldl_append, foldl_utf8_shift]
  rfl

theorem keywords_lower_fixed :
    ∀ kw ∈ service_keywords, kw.data.map Char.toLower = kw.data := by
  decide

theorem portFloor_mono (m : Manifest) (p : ProcessInfo) {s t : ℚ} (h : s ≤ t) :
    portFloor m p s ≤ portFloor m p t := by
  unfold portFloor
  split
  · exact max_le_max h (le_refl _)
  · exact h

theorem userBonus_mono (p : ProcessInfo) {s t : ℚ} (h : s ≤ t) :
    userBonus p s ≤ userBonus p t := by
  unfold userBonus
  split
  · linarith
  · exact h

theorem cmdlineBonus_mono (p p2 : ProcessInfo)
    (hlen : utf8Len p.full_cmdline ≤ utf8Len p2.full_cmdline) {s t : ℚ}
    (h : s ≤ t) : cmdlineBonus p s ≤ cmdlineBonus p2 t := by
  unfold cmdlineBonus
  split_ifs with h1 h2 h2
  · linarith
  · exact absurd (lt_of_lt_of_le h1 hlen) h2
  · linarith
  · exact h

/-- **C8.** Process scoring is monotone in the known-app keyword signal:
for every pair of process records identical except that the second one's
`command` or `full_cmdline` additionally contains a known-app keyword
(modelled as the keyword inserted at an arbitrary position), the score of
the second is at least the score of the first. -/
theorem C8_scoring_monotone_known_app (m : Manifest) (p p2 : ProcessInfo)
    (kw : String) (hkw : kw ∈ service_keywords) (a b : List Char)
    (hins :
      (p2 = { p with command := ⟨a ++ kw.data ++ b⟩ } ∧ p.command = ⟨a ++ b⟩) ∨
      (p2 = { p with full_cmdline := ⟨a ++ kw.data ++ b⟩ } ∧
        p.full_cmdline = ⟨a ++ b⟩)) :
    (scoreProcess m p).score ≤ (scoreProcess m p2).score := by
  have hsub : strContainsStr (toLowerStr ⟨a ++ kw.data ++ b⟩) kw = true := by
    unfold strContainsStr toLowerStr
    show subList kw.data ((a ++ kw.data ++ b).map Char.toLower) = true
    rw [List.map_append, List.map_append, keywords_lower_fixed kw hkw,
      List.append_assoc]
    exact subList_of_middle _ _ _
  rcases hins with ⟨hp2, _⟩ | ⟨hp2, hcmd⟩
  · subst hp2
    have hknown : knownAppHit { p with command := ⟨a ++ kw.data ++ b⟩ } = true := by
      unfold knownAppHit
      apply List.any_eq_true.mpr
      refine ⟨kw, hkw, ?_⟩
      rw [Bool.or_eq_true]
      exact Or.inl hsub
    have hbase : scoreBase { p with command := ⟨a ++ kw.data ++ b⟩ } = 8/10 := by
      unfold scoreBase
      rw [if_pos hknown]
    show scoreVal m p ≤ scoreVal m _
    unfold scoreVal
    apply cmdlineBonus_mono _ _ (le_refl _)
    apply userBonus_mono
    apply serviceFloor_mono
    apply portFloor_mono
    rw [hbase]
    exact scoreBase_le p
  · subst hp2
    have hknown : knownAppHit { p with full_cmdline := ⟨a ++ kw.data ++ b⟩ }
        = true := by
      unfold knownAppHit
      apply List.any_eq_true.mpr
      refine ⟨kw, hkw, ?_⟩
      rw [Bool.or_eq_true]
      exact Or.inr hsub
    have hbase : scoreBase { p with full_cmdline := ⟨a ++ kw.data ++ b⟩ }
        = 8/10 := by
      unfold scoreBase
      rw [if_pos hknown]
    have hlen : utf8Len p.full_cmdline
        ≤ utf8Len (⟨a ++ kw.data ++ b⟩ : String) := by
      rw [hcmd, List.append_assoc, utf8Len_append, utf8Len_append,
        utf8Len_append]
      omega
    show scoreVal m p ≤ scoreVal m _
    unfold scoreVal
    apply cmdlineBonus_mono _ _ hlen
    apply userBonus_mono
    apply serviceFloor_mono
    apply portFloor_mono
    rw [hbase]
    exact scoreBase_le p

/-- Witness for C8: appending `nginx` to the command of an otherwise
identical process does not lower its score. -/
theorem C8_scoring_monotone_known_app_witness :
    (scoreProcess ⟨"1.0.0", "cid", ⟨"h", "linux", none, none, none⟩,
        [], [], [], [], []⟩ ⟨1, 0, "root", "sh", [], "sh", none, none⟩).score ≤
    (scoreProcess ⟨"1.0.0", "cid", ⟨"h", "linux", none, none, none⟩,
        [], [], [], [], []⟩
      ⟨1, 0, "root", "shnginx", [], "sh", none, none⟩).score :=
  C8_scoring_monotone_known_app _ _ _ "nginx" (by decide) "sh".data []
    (Or.inl ⟨by decide, by decide⟩)

/-! ## A small regex engine

The redactor (`crates/redaction/src/patterns.rs`) and the dependency
detector (`crates/analyzer/src/dependencies.rs`) use the Rust `regex`
crate, which implements leftmost-first (Perl-like) match semantics.  We
embed the regexes those modules use as abstract syntax trees and execute
them with a fuel-bounded backtracking matcher whose preference order —
leftmost alternative first, greedy repetition — coincides with the
crate's leftmost-first semantics.  The fuel bounds the recursion depth and
is generous for every concrete string evaluated below; theorems that
quantify over all strings use only properties that hold for every fuel
(a match that is not found causes no replacement).  Case-insensitive
matching is modelled by ASCII case folding and `\s`/`\S`/`\d` by their
ASCII parts; every string these theorems evaluate is ASCII. -/

/-- Regex abstract syntax: character classes, sequence, prioritized
alternation, greedy star, capture groups, and the text anchors `^`/`$`
(the Rust patterns are compiled without multi-line mode, so the anchors
match only at the start/end of the haystack). -/
inductive RE where
  | eps
  | cls (p : Char → Bool)
  | seq (a b : RE)
  | alt (a b : RE)
  | star (a : RE)
  | group (idx : Nat) (a : RE)
  | bol
  | eol

/-- Backtracking matcher in continuation-passing style.  `s` is the
remaining input and `pos` its absolute position in the haystack; `caps`
accumulates capture-group spans.  Returns the continuation's answer for
the first (leftmost-first) way to match `r`, or `none`. -/
def reRun (fuel : Nat) (r : RE) (s : List Char) (pos : Nat)
    (caps : List (Nat × Nat × Nat))
    (k : List Char → Nat → List (Nat × Nat × Nat) →
      Option (Nat × List (Nat × Nat × Nat))) :
    Option (Nat × List (Nat × Nat × Nat)) :=
  match fuel with
  | 0 => none
  | fuel + 1 =>
    match r with
    | .eps => k s pos caps
    | .cls p =>
      match s with
      | [] => none
      | c :: rest => if p c then k rest (pos + 1) caps else none
    | .seq a b =>
      reRun fuel a s pos caps (fun s1 p1 c1 => reRun fuel b s1 p1 c1 k)
    | .alt a b =>
      match reRun fuel a s pos caps k with
      | some res => some res
      | none => reRun fuel b s pos caps k
    | .star a =>
      match reRun fuel a s pos caps (fun s1 p1 c1 =>
          if p1 == pos then none else reRun fuel (.star a) s1 p1 c1 k) with
      | some res => some res
      | none => k s pos caps
    | .group i a =>
      reRun fuel a s pos caps (fun s1 p1 c1 => k s1 p1 ((i, pos, p1) :: c1))
    | .bol => if pos == 0 then k s pos caps else none
    | .eol => if s.isEmpty then k s pos caps else none

/-- Syntactic size of a regex, for the fuel bound. -/
def reSize : RE → Nat
  | .eps | .cls _ | .bol | .eol => 1
  | .seq a b | .alt a b => reSize a + reSize b + 1
  | .star a | .group _ a => reSize a + 1

/-- Fuel bound: the matcher's recursion depth is at most linear in the
pattern size plus, per consumed character, another pattern size. -/
def reFuel (r : RE) (n : Nat) : Nat := (n + 2) * (reSize r + 2) + 16

/-- Try to match `r` at the given suffix `s` / absolute position `pos`;
returns the end position and captures of the preferred match. -/
def reMatchAt (r : RE) (s : List Char) (pos : Nat) :
    Option (Nat × List (Nat × Nat × Nat)) :=
  reRun (reFuel r s.length) r s pos [] (fun _ p c => some (p, c))

/-- Leftmost match search from position `pos` (suffix `s`):
`Regex::find`. -/
def reFindAux (r : RE) : List Char → Nat → Option (Nat × Nat × List (Nat × Nat × Nat))
  | s, pos =>
    match reMatchAt r s pos with
    | some (e, caps) => some (pos, e, caps)
    | none =>
      match s with
      | [] => none
      | _ :: t => reFindAux r t (pos + 1)

/-- Iterated non-overlapping leftmost matches (`Regex::find_iter` /
`captures_iter`); an empty match advances one character, as in the
`regex` crate. -/
def reFindIterAux (r : RE) : Nat → List Char → Nat →
    List (Nat × Nat × List (Nat × Nat × Nat))
  | 0, _, _ => []
  | fuel + 1, s, pos =>
    match reFindAux r s pos with
    | none => []
    | some (st, en, caps) =>
      let adv := if en == st then st + 1 - pos else en - pos
      (st, en, caps) :: reFindIterAux r fuel (s.drop adv) (pos + adv)

/-- All non-overlapping matches of `r` in `s`, leftmost-first. -/
def reFindIter (r : RE) (s : List Char) :
    List (Nat × Nat × List (Nat × Nat × Nat)) :=
  reFindIterAux r (s.length + 1) s 0

/-- `Regex::is_match`. -/
def reIsMatch (r : RE) (s : String) : Bool := (reFindAux r s.data 0).isSome

/-! Regex construction helpers. -/

def reSeqList : List RE → RE
  | [] => .eps
  | [r] => r
  | r :: rest => .seq r (reSeqList rest)

def reAltList : List RE → RE
  | [] => .cls (fun _ => false)
  | [r] => r
  | r :: rest => .alt r (reAltList rest)

def reChar (c : Char) : RE := .cls (fun x => x == c)

def reCharCI (c : Char) : RE := .cls (fun x => x.toLower == c.toLower)

def reStr (s : String) : RE := reSeqList (s.data.map reChar)

def reStrCI (s : String) : RE := reSeqList (s.data.map reCharCI)

def rePlus (r : RE) : RE := .seq r (.star r)

def reOpt (r : RE) : RE := .alt r .eps

def reRepeatN (n : Nat) (r : RE) : RE := reSeqList (List.replicate n r)

/-- ASCII whitespace, the ASCII part of the regex class `\s`. -/
def isWsChar (c : Char) : Bool :=
  c == ' ' || c == '\t' || c == '\n' || c == '\r' || c.val == 11 || c.val == 12

def reWs : RE := .cls isWsChar

def reNonWs : RE := .cls (fun c => !isWsChar c)

/-- Rust regex `.`: any character except `\n`. -/
def reDot : RE := .cls (fun c => c != '\n')

def isAsciiDigit (c : Char) : Bool := '0' ≤ c && c ≤ '9'

def reDigit : RE := .cls isAsciiDigit

/-- The class `[_-]`. -/
def reUnderDash : RE := .cls (fun c => c == '_' || c == '-')

/-! ## Redaction patterns (`crates/redaction/src/patterns.rs`) -/

/-- `SECRET_KEY_PATTERN` (`patterns.rs` line 7). -/
def SECRET_KEY_PATTERN : RE :=
  reAltList
    [reStrCI "password", reStrCI "passwd", reStrCI "pwd", reStrCI "secret",
     reStrCI "token",
     reSeqList [reStrCI "api", reOpt reUnderDash, reStrCI "key"],
     reStrCI "apikey",
     reSeqList [reStrCI "auth", reOpt reUnderDash, reStrCI "token"],
     reSeqList [reStrCI "access", reOpt reUnderDash, reStrCI "token"],
     reSeqList [reStrCI "private", reOpt reUnderDash, reStrCI "key"],
     reSeqList [reStrCI "client", reOpt reUnderDash, reStrCI "secret"],
     reStrCI "bearer",
     reSeqList [reStrCI "credential", reOpt (reCharCI 's')],
     reStrCI "jwt",
     reSeqList [reStrCI "session", reOpt reUnderDash, reStrCI "id"],
     reStrCI "cookie", reStrCI "oauth"]

/-- `is_sensitive_key` (`patterns.rs` lines 70–72). -/
def is_sensitive_key (key : String) : Bool := reIsMatch SECRET_KEY_PATTERN key

/-- `(?i)[a-z]`: with case-insensitivity this is any ASCII letter. -/
def reAlphaCI : RE := .cls (fun c => 'a' ≤ c.toLower && c.toLower ≤ 'z')

/-- `(?i)[A-Z0-9]`: with case-insensitivity, ASCII letters and digits. -/
def reUpperAlnumCI : RE :=
  .cls (fun c => isAsciiDigit c || ('a' ≤ c.toLower && c.toLower ≤ 'z'))

/-- `AUTH_HEADER_PATTERN` (`patterns.rs` line 13).  Capture groups that no
caller reads are omitted throughout: they do not affect the match span. -/
def AUTH_HEADER_PATTERN : RE :=
  reSeqList
    [reAltList [reStrCI "Authorization", reStrCI "X-Api-Key",
      reStrCI "X-Auth-Token", reStrCI "X-Access-Token"],
     reChar ':', .star reWs, rePlus reNonWs]

/-- `CONNECTION_STRING_PATTERN` (`patterns.rs` line 18). -/
def CONNECTION_STRING_PATTERN : RE :=
  reSeqList
    [reAltList [reStrCI "mongodb", reStrCI "mysql", reStrCI "postgres",
      reStrCI "postgresql", reStrCI "redis", reStrCI "amqp", reStrCI "mssql"],
     reStr "://", rePlus reNonWs]

/-- `DB_URL_PATTERN` (`patterns.rs` line 23): `(?i)[a-z]+://[^:]+:[^@]+@[^\s]+`. -/
def DB_URL_PATTERN : RE :=
  reSeqList
    [rePlus reAlphaCI, reStr "://", rePlus (.cls (fun c => c != ':')),
     reChar ':', rePlus (.cls (fun c => c != '@')), reChar '@', rePlus reNonWs]

/-- `AWS_KEY_PATTERN` (`patterns.rs` line 27). -/
def AWS_KEY_PATTERN : RE :=
  .seq (reAltList [reStrCI "AKIA", reStrCI "ABIA", reStrCI "ACCA", reStrCI "ASIA"])
    (reRepeatN 16 reUpperAlnumCI)

/-- `AWS_SECRET_PATTERN` (`patterns.rs` line 31). -/
def AWS_SECRET_PATTERN : RE :=
  reSeqList
    [reStrCI "aws", reOpt reUnderDash, reStrCI "secret", reOpt reUnderDash,
     reStrCI "access", reOpt reUnderDash, reStrCI "key", .star reWs,
     .cls (fun c => c == '=' || c == ':'), .star reWs,
     reRepeatN 40 (.cls (fun c => isAsciiDigit c
       || ('a' ≤ c.toLower && c.toLower ≤ 'z') || c == '/' || c == '+' || c == '='))]

/-- The value class `[A-Za-z0-9_\-+/=]` of `GENERIC_API_KEY_PATTERN`. -/
def isGenericValueChar (c : Char) : Bool :=
  isAsciiDigit c || ('a' ≤ c.toLower && c.toLower ≤ 'z')
    || c == '_' || c == '-' || c == '+' || c == '/' || c == '='

/-- `GENERIC_API_KEY_PATTERN` (`patterns.rs` line 36):
`(?i)(api[_-]?key|token|secret)\s*[=:]\s*[A-Za-z0-9_\-+/=]{20,}`. -/
def GENERIC_API_KEY_PATTERN : RE :=
  reSeqList
    [reAltList [reSeqList [reStrCI "api", reOpt reUnderDash, reStrCI "key"],
      reStrCI "token", reStrCI "secret"],
     .star reWs, .cls (fun c => c == '=' || c == ':'), .star reWs,
     reRepeatN 20 (.cls isGenericValueChar), .star (.cls isGenericValueChar)]

/-- `PRIVATE_KEY_PATTERN` (`patterns.rs` line 41), the only case-sensitive
pattern: `-----BEGIN\s+(RSA\s+)?PRIVATE\s+KEY-----`. -/
def PRIVATE_KEY_PATTERN : RE :=
  reSeqList
    [reStr "-----BEGIN", rePlus reWs,
     reOpt (.seq (reStr "RSA") (rePlus reWs)),
     reStr "PRIVATE", rePlus reWs, reStr "KEY-----"]

/-- `(?i)[A-Z_]`: ASCII letter or underscore. -/
def reUpperUnderCI : RE :=
  .cls (fun c => ('a' ≤ c.toLower && c.toLower ≤ 'z') || c == '_')

/-- `(?i)[A-Z0-9_]`: ASCII letter, digit or underscore. -/
def reUpperAlnumUnderCI : RE :=
  .cls (fun c => isAsciiDigit c || ('a' ≤ c.toLower && c.toLower ≤ 'z') || c == '_')

/-- `ENV_VAR_ASSIGNMENT_PATTERN` (`patterns.rs` line 45); anchored to the
whole haystack since the pattern is compiled without multi-line mode. -/
def ENV_VAR_ASSIGNMENT_PATTERN : RE :=
  reSeqList
    [.bol, reUpperUnderCI, .star reUpperAlnumUnderCI,
     reAltList [reStrCI "PASSWORD", reStrCI "PASSWD", reStrCI "PWD",
       reStrCI "SECRET", reStrCI "TOKEN",
       reSeqList [reStrCI "API", reOpt reUnderDash, reStrCI "KEY"],
       reStrCI "APIKEY", reStrCI "AUTH", reStrCI "PRIVATE",
       reSeqList [reStrCI "CREDENTIAL", reOpt (reCharCI 'S')]],
     .star reUpperAlnumUnderCI, .star reWs, reChar '=', .star reWs,
     rePlus reDot, .eol]

/-- The sensitive-key alternation shared by the JSON and YAML patterns. -/
def reJsonYamlKey : RE :=
  reAltList [reStrCI "password", reStrCI "secret", reStrCI "token",
    reSeqList [reStrCI "api", reOpt reUnderDash, reStrCI "key"],
    reSeqList [reStrCI "private", reOpt reUnderDash, reStrCI "key"],
    reSeqList [reStrCI "credential", reOpt (reCharCI 's')]]

/-- `JSON_SENSITIVE_KEY_PATTERN` (`patterns.rs` line 49). -/
def JSON_SENSITIVE_KEY_PATTERN : RE :=
  reSeqList
    [reChar '"', reJsonYamlKey, reChar '"', .star reWs, reChar ':', .star reWs,
     reChar '"', rePlus (.cls (fun c => c != '"')), reChar '"']

/-- `YAML_SENSITIVE_KEY_PATTERN` (`patterns.rs` line 57); anchored to the
whole haystack (no multi-line mode). -/
def YAML_SENSITIVE_KEY_PATTERN : RE :=
  reSeqList
    [.bol, .star reWs, reJsonYamlKey, reChar ':', .star reWs, rePlus reDot, .eol]

/-- `all_redaction_patterns` (`patterns.rs` lines 75–88), in source order. -/
def all_redaction_patterns : List (String × RE) :=
  [("auth_header", AUTH_HEADER_PATTERN),
   ("connection_string", CONNECTION_STRING_PATTERN),
   ("db_url", DB_URL_PATTERN),
   ("aws_key", AWS_KEY_PATTERN),
   ("aws_secret", AWS_SECRET_PATTERN),
   ("generic_api_key", GENERIC_API_KEY_PATTERN),
   ("private_key", PRIVATE_KEY_PATTERN),
   ("env_var_assignment", ENV_VAR_ASSIGNMENT_PATTERN),
   ("json_sensitive", JSON_SENSITIVE_KEY_PATTERN),
   ("yaml_sensitive", YAML_SENSITIVE_KEY_PATTERN)]

/-! ## The redactor (`crates/redaction/src/redactor.rs`, `entropy.rs`,
`lib.rs`) -/

/-- `REDACTED_PLACEHOLDER` (`lib.rs` line 14). -/
def REDACTED_PLACEHOLDER : String := "[REDACTED]"

/-- `hash_placeholder` (`lib.rs` lines 20–24), over an abstract digest
function standing in for `sha256_str` (the SHA-256 algorithm itself is
out of scope; no theorem depends on its values). -/
def hash_placeholder (hashFn : String → String) (value : String) : String :=
  "[HASH:" ++ (hashFn value).take 12 ++ "]"

/-- `RedactorConfig` (`redactor.rs` lines 11–20).  The `f64` entropy
threshold together with `shannon_entropy` is modelled by the abstract
predicate `entropyHigh` (Shannon entropy over `f64` logarithms is not
shallow-embeddable); `hashFn` stands in for SHA-256.  Every theorem below
either quantifies over these fields or evaluates inputs on which they are
never consulted. -/
structure RedactorConfig where
  use_hash_placeholders : Bool
  enable_entropy_detection : Bool
  additional_patterns : List RE
  hashFn : String → String
  entropyHigh : String → Bool

/-- `RedactionStats` (`redactor.rs` lines 43–55). -/
structure RedactionStats where
  pattern_redactions : Nat
  entropy_redactions : Nat
  key_redactions : Nat
  total_chars_redacted : Nat
  matched_patterns : List String
  deriving Repr, DecidableEq

/-- `RedactionStats::total` (`redactor.rs` lines 59–61). -/
def RedactionStats.total (st : RedactionStats) : Nat :=
  st.pattern_redactions + st.entropy_redactions + st.key_redactions

/-- `RedactionResult` (`redactor.rs` lines 34–40). -/
structure RedactionResult where
  content : String
  stats : RedactionStats
  deriving Repr, DecidableEq

/-- The characters of `content` between positions `st` and `en`. -/
def sliceChars (s : List Char) (st en : Nat) : List Char :=
  (s.drop st).take (en - st)

/-- Replace each span (given with its replacement text, in ascending
non-overlapping order) inside the suffix of the haystack that starts at
absolute position `cur`.  This is the mathematical form of the
offset-adjusting `replace_range` loop of `apply_pattern_redaction`
(`redactor.rs` lines 161–196). -/
def spliceFrom : Nat → List Char → List (Nat × Nat × List Char) → List Char
  | _, s, [] => s
  | cur, s, (st, en, rep) :: rest =>
      s.take (st - cur) ++ rep ++ spliceFrom en (s.drop (en - cur)) rest

/-- `apply_pattern_redaction` (`redactor.rs` lines 161–196): replace every
match found by `find_iter`, counting matches and redacted bytes. -/
def apply_pattern_redaction (cfg : RedactorConfig) (pattern : RE)
    (content : List Char) : List Char × Nat × Nat :=
  let ms := (reFindIter pattern content).map (fun m => (m.1, m.2.1))
  let withRepl := ms.map (fun se =>
    (se.1, se.2,
      (if cfg.use_hash_placeholders then
        hash_placeholder cfg.hashFn ⟨sliceChars content se.1 se.2⟩
      else REDACTED_PLACEHOLDER).data))
  (spliceFrom 0 content withRepl, ms.length,
    (ms.map (fun se => utf8Len ⟨sliceChars content se.1 se.2⟩)).sum)

/-- `looks_like_token`'s containing-character count (`entropy.rs` line 59). -/
def alnumCount (s : String) : Nat := (s.data.filter rustIsAlphanumeric).length

/-- `is_high_entropy` (`entropy.rs` lines 31–46), with the final
`shannon_entropy(s) >= threshold` comparison abstracted as `ent`. -/
def is_high_entropy (ent : String → Bool) (s : String) : Bool :=
  if utf8Len s < 16 || 256 < utf8Len s then false
  else if (strStartsWith s "/" || strStartsWith s "http://"
        || strStartsWith s "https://")
      && (!strContainsStr s "@" && !strContainsStr s "://") then false
  else ent s

/-- `looks_like_token` (`entropy.rs` lines 52–69).  The `f64` ratio
comparison is computed exactly over `ℚ`. -/
def looks_like_token (ent : String → Bool) (s : String) : Bool :=
  if utf8Len s < 16 then false
  else if ((alnumCount s : ℚ) / (utf8Len s : ℚ)) < 7/10 then false
  else is_high_entropy ent s

/-- Word characters of the entropy tokenizer
(`redactor.rs` line 205: alphanumeric or `_ - + / =`). -/
def isEntropyWordChar (c : Char) : Bool :=
  rustIsAlphanumeric c || c == '_' || c == '-' || c == '+' || c == '/' || c == '='

/-- Emitting one buffered word in `apply_entropy_redaction`
(`redactor.rs` lines 208–223 and 229–242): replaced if it looks like a
token, kept otherwise; returns (text, replacements, redacted bytes). -/
def flushWord (cfg : RedactorConfig) (w : List Char) : List Char × Nat × Nat :=
  if w.isEmpty then ([], 0, 0)
  else if looks_like_token cfg.entropyHigh ⟨w⟩ then
    ((if cfg.use_hash_placeholders then hash_placeholder cfg.hashFn ⟨w⟩
      else REDACTED_PLACEHOLDER).data, 1, utf8Len ⟨w⟩)
  else (w, 0, 0)

/-- The character loop of `apply_entropy_redaction`
(`redactor.rs` lines 199–245), with `word` the current word buffer. -/
def entropyLoop (cfg : RedactorConfig) (word : List Char) :
    List Char → List Char × Nat × Nat
  | [] => flushWord cfg word
  | c :: rest =>
    if isEntropyWordChar c then entropyLoop cfg (word ++ [c]) rest
    else
      let fw := flushWord cfg word
      let rst := entropyLoop cfg [] rest
      (fw.1 ++ c :: rst.1, fw.2.1 + rst.2.1, fw.2.2 + rst.2.2)

/-- `apply_entropy_redaction` (`redactor.rs` lines 199–245). -/
def apply_entropy_redaction (cfg : RedactorConfig) (content : List Char) :
    List Char × Nat × Nat :=
  entropyLoop cfg [] content

/-- The named-pattern stage of `Redactor::redact`
(`redactor.rs` lines 105–112): apply the ten patterns in order, recording
a pattern's name when it changed the byte length. -/
def redactPatternStage (cfg : RedactorConfig) (content : List Char) :
    List Char × Nat × Nat × List String :=
  all_redaction_patterns.foldl
    (fun acc p =>
      let step := apply_pattern_redaction cfg p.2 acc.1
      let names :=
        if utf8Len ⟨step.1⟩ != utf8Len ⟨acc.1⟩ then acc.2.2.2 ++ [p.1]
        else acc.2.2.2
      (step.1, acc.2.1 + step.2.1, acc.2.2.1 + step.2.2, names))
    (content, 0, 0, [])

/-- The additional-pattern stage of `Redactor::redact`
(`redactor.rs` lines 115–117). -/
def redactAdditionalStage (cfg : RedactorConfig) (content : List Char) :
    List Char × Nat × Nat :=
  cfg.additional_patterns.foldl
    (fun acc p =>
      let step := apply_pattern_redaction cfg p acc.1
      (step.1, acc.2.1 + step.2.1, acc.2.2 + step.2.2))
    (content, 0, 0)

/-- `Redactor::redact` (`redactor.rs` lines 101–128). -/
def redact (cfg : RedactorConfig) (content : String) : RedactionResult :=
  let s1 := redactPatternStage cfg content.data
  let s2 := redactAdditionalStage cfg s1.1
  let s3 :=
    if cfg.enable_entropy_detection then apply_entropy_redaction cfg s2.1
    else (s2.1, 0, 0)
  { content := ⟨s3.1⟩,
    stats :=
      { pattern_redactions := s1.2.1 + s2.2.1,
        entropy_redactions := s3.2.1,
        key_redactions := 0,
        total_chars_redacted := s1.2.2.1 + s2.2.2 + s3.2.2,
        matched_patterns := s1.2.2.2 } }

/-- `RedactorConfig::default` (`redactor.rs` lines 22–31): generic
placeholder, entropy detection on, no additional patterns; the entropy
oracle `ent` stands in for the `f64` Shannon-entropy threshold test. -/
def defaultRedactorConfig (ent : String → Bool) : RedactorConfig :=
  ⟨false, true, [], fun _ => "", ent⟩

theorem apply_pattern_zero (cfg : RedactorConfig) (p : RE) (c : List Char)
    (h : (apply_pattern_redaction cfg p c).2.1 = 0) :
    (apply_pattern_redaction cfg p c).1 = c := by
  unfold apply_pattern_redaction at h ⊢
  simp only [List.length_map] at h
  rw [List.length_eq_zero] at h
  simp [h, spliceFrom]

theorem patternStage_count_mono (cfg : RedactorConfig)
    (ps : List (String × RE)) (st : List Char × Nat × Nat × List String) :
    st.2.1 ≤ (ps.foldl
      (fun acc p =>
        let step := apply_pattern_redaction cfg p.2 acc.1
        let names :=
          if utf8Len ⟨step.1⟩ != utf8Len ⟨acc.1⟩ then acc.2.2.2 ++ [p.1]
          else acc.2.2.2
        (step.1, acc.2.1 + step.2.1, acc.2.2.1 + step.2.2, names)) st).2.1 := by
  induction ps generalizing st with
  | nil => exact le_refl _
  | cons p rest ih =>
    simp only [List.foldl_cons]
    calc st.2.1
        ≤ st.2.1 + (apply_pattern_redaction cfg p.2 st.1).2.1 :=
          Nat.le_add_right _ _
      _ ≤ _ := by
          have := ih ((apply_pattern_redaction cfg p.2 st.1).1,
            st.2.1 + (apply_pattern_redaction cfg p.2 st.1).2.1,
            st.2.2.1 + (apply_pattern_redaction cfg p.2 st.1).2.2,
            if utf8Len ⟨(apply_pattern_redaction cfg p.2 st.1).1⟩
                != utf8Len ⟨st.1⟩ then st.2.2.2 ++ [p.1] else st.2.2.2)
          simpa using this

theorem patternStage_zero (cfg : RedactorConfig) (ps : List (String × RE)) :
    ∀ (st : List Char × Nat × Nat × List String),
    (ps.foldl
      (fun acc p =>
        let step := apply_pattern_redaction cfg p.2 acc.1
        let names :=
          if utf8Len ⟨step.1⟩ != utf8Len ⟨acc.1⟩ then acc.2.2.2 ++ [p.1]
          else acc.2.2.2
        (step.1, acc.2.1 + step.2.1, acc.2.2.1 + step.2.2, names)) st).2.1
      = st.2.1 →
    (ps.foldl
      (fun acc p =>
        let step := apply_pattern_redaction cfg p.2 acc.1
        let names :=
          if utf8Len ⟨step.1⟩ != utf8Len ⟨acc.1⟩ then acc.2.2.2 ++ [p.1]
          else acc.2.2.2
        (step.1, acc.2.1 + step.2.1, acc.2.2.1 + step.2.2, names)) st).1
      = st.1 := by
  induction ps with
  | nil => intro st _; rfl
  | cons p rest ih =>
    intro st h
    simp only [List.foldl_cons] at h ⊢
    have hmono := patternStage_count_mono cfg rest
      ((apply_pattern_redaction cfg p.2 st.1).1,
       st.2.1 + (apply_pattern_redaction cfg p.2 st.1).2.1,
       st.2.2.1 + (apply_pattern_redaction cfg p.2 st.1).2.2,
       if utf8Len ⟨(apply_pattern_redaction cfg p.2 st.1).1⟩
           != utf8Len ⟨st.1⟩ then st.2.2.2 ++ [p.1] else st.2.2.2)
    simp only at hmono h
    have hz : (apply_pattern_redaction cfg p.2 st.1).2.1 = 0 := by omega
    have hc := apply_pattern_zero cfg p.2 st.1 hz
    rw [hc] at h ⊢
    have := ih (st.1, st.2.1 + (apply_pattern_redaction cfg p.2 st.1).2.1,
      st.2.2.1 + (apply_pattern_redaction cfg p.2 st.1).2.2,
      if utf8Len ⟨st.1⟩ != utf8Len ⟨st.1⟩ then st.2.2.2 ++ [p.1]
      else st.2.2.2)
    simp only [hz, Nat.add_zero] at this h ⊢
    exact this h

theorem additionalStage_count_mono (cfg : RedactorConfig) (ps : List RE)
    (st : List Char × Nat × Nat) :
    st.2.1 ≤ (ps.foldl
      (fun acc p =>
        let step := apply_pattern_redaction cfg p acc.1
        (step.1, acc.2.1 + step.2.1, acc.2.2 + step.2.2)) st).2.1 := by
  induction ps generalizing st with
  | nil => exact le_refl _
  | cons p rest ih =>
    simp only [List.foldl_cons]
    calc st.2.1
        ≤ st.2.1 + (apply_pattern_redaction cfg p st.1).2.1 :=
          Nat.le_add_right _ _
      _ ≤ _ := by
          have := ih ((apply_pattern_redaction cfg p st.1).1,
            st.2.1 + (apply_pattern_redaction cfg p st.1).2.1,
            st.2.2 + (apply_pattern_redaction cfg p st.1).2.2)
          simpa using this

theorem additionalStage_zero (cfg : RedactorConfig) (ps : List RE) :
    ∀ (st : List Char × Nat × Nat),
    (ps.foldl
      (fun acc p =>
        let step := apply_pattern_redaction cfg p acc.1
        (step.1, acc.2.1 + step.2.1, acc.2.2 + step.2.2)) st).2.1 = st.2.1 →
    (ps.foldl
      (fun acc p =>
        let step := apply_pattern_redaction cfg p acc.1
        (step.1, acc.2.1 + step.2.1, acc.2.2 + step.2.2)) st).1 = st.1 := by
  induction ps with
  | nil => intro st _; rfl
  | cons p rest ih =>
    intro st h
    simp only [List.foldl_cons] at h ⊢
    have hmono := additionalStage_count_mono cfg rest
      ((apply_pattern_redaction cfg p st.1).1,
       st.2.1 + (apply_pattern_redaction cfg p st.1).2.1,
       st.2.2 + (apply_pattern_redaction cfg p st.1).2.2)
    simp only at hmono h
    have hz : (apply_pattern_redaction cfg p st.1).2.1 = 0 := by omega
    have hc := apply_pattern_zero cfg p st.1 hz
    rw [hc] at h ⊢
    have := ih (st.1, st.2.1 + (apply_pattern_redaction cfg p st.1).2.1,
      st.2.2 + (apply_pattern_redaction cfg p st.1).2.2)
    simp only [hz, Nat.add_zero] at this h ⊢
    exact this h

theorem flushWord_zero (cfg : RedactorConfig) (w : List Char)
    (h : (flushWord cfg w).2.1 = 0) : (flushWord cfg w).1 = w := by
  unfold flushWord at h ⊢
  by_cases he : w.isEmpty = true
  · rw [if_pos he] at h ⊢
    simp [List.isEmpty_iff.mp he]
  · rw [if_neg he] at h ⊢
    by_cases ht : looks_like_token cfg.entropyHigh ⟨w⟩ = true
    · rw [if_pos ht] at h
      simp at h
    · rw [if_neg ht]

theorem entropyLoop_zero (cfg : RedactorConfig) (l : List Char) :
    ∀ w, (entropyLoop cfg w l).2.1 = 0 → (entropyLoop cfg w l).1 = w ++ l := by
  induction l with
  | nil =>
    intro w h
    unfold entropyLoop at h ⊢
    simpa using flushWord_zero cfg w h
  | cons c rest ih =>
    intro w h
    unfold entropyLoop at h ⊢
    split at h
    · next hw =>
      rw [if_pos hw]
      have := ih (w ++ [c]) h
      simpa using this
    · next hw =>
      rw [if_neg hw]
      simp only at h ⊢
      have h1 : (flushWord cfg w).2.1 = 0 := by omega
      have h2 : (entropyLoop cfg [] rest).2.1 = 0 := by omega
      rw [flushWord_zero cfg w h1, ih [] h2]
      simp

/-- **C5 counterexample.** Redaction is *not* idempotent.  On the input
`A_PASSWORD= "token" :\n "v"`, the first pass replaces the two-line JSON
fragment `"token" :\n "v"` with `[REDACTED]`, welding the text into the
single-line assignment `A_PASSWORD= [REDACTED]`; the second pass then
matches the env-var-assignment pattern, changes the content again and
reports one redaction instead of zero.  Both instantiations of the
entropy oracle are shown: no word on these inputs reaches the 16-byte
entropy threshold, so the oracle is never consulted. -/
theorem C5_counterexample :
    ((redact (defaultRedactorConfig (fun _ => false))
        (redact (defaultRedactorConfig (fun _ => false))
          "A_PASSWORD= \"token\" :\n \"v\"").content).content
      ≠ (redact (defaultRedactorConfig (fun _ => false))
          "A_PASSWORD= \"token\" :\n \"v\"").content)
    ∧ (redact (defaultRedactorConfig (fun _ => false))
        (redact (defaultRedactorConfig (fun _ => false))
          "A_PASSWORD= \"token\" :\n \"v\"").content).stats.total ≠ 0
    ∧ ((redact (defaultRedactorConfig (fun _ => true))
        (redact (defaultRedactorConfig (fun _ => true))
          "A_PASSWORD= \"token\" :\n \"v\"").content).content
      ≠ (redact (defaultRedactorConfig (fun _ => true))
          "A_PASSWORD= \"token\" :\n \"v\"").content) := by
  have h1 : (redact (defaultRedactorConfig (fun _ => false))
      "A_PASSWORD= \"token\" :\n \"v\"").content = "A_PASSWORD= [REDACTED]" := by
    decide
  have h2 : (redact (defaultRedactorConfig (fun _ => true))
      "A_PASSWORD= \"token\" :\n \"v\"").content = "A_PASSWORD= [REDACTED]" := by
    decide
  refine ⟨?_, ?_, ?_⟩
  · rw [h1]; decide
  · rw [h1]; decide
  · rw [h2]; decide

/-- **C5 (amended).** Double redaction is not idempotent in general: a
first-pass replacement can weld surrounding text into a new match for an
anchored pattern, which the second pass redacts again (see the
counterexample).  What does hold, for every configuration and input, is
that a redaction pass reporting zero total redactions returns its input
unchanged — so the second pass leaves the text unchanged exactly when it
reports zero redactions. -/
theorem redactPatternStage_zero (cfg : RedactorConfig) (c : List Char)
    (hz : (redactPatternStage cfg c).2.1 = 0) :
    (redactPatternStage cfg c).1 = c := by
  unfold redactPatternStage at hz ⊢
  exact patternStage_zero cfg all_redaction_patterns (c, 0, 0, []) hz

theorem redactAdditionalStage_zero (cfg : RedactorConfig) (c : List Char)
    (hz : (redactAdditionalStage cfg c).2.1 = 0) :
    (redactAdditionalStage cfg c).1 = c := by
  unfold redactAdditionalStage at hz ⊢
  exact additionalStage_zero cfg cfg.additional_patterns (c, 0, 0) hz

theorem apply_entropy_redaction_zero (cfg : RedactorConfig) (c : List Char)
    (hz : (apply_entropy_redaction cfg c).2.1 = 0) :
    (apply_entropy_redaction cfg c).1 = c := by
  unfold apply_entropy_redaction at hz ⊢
  simpa using entropyLoop_zero cfg c [] hz

theorem C5_redact_zero_total_identity (cfg : RedactorConfig) (s : String)
    (h : (redact cfg s).stats.total = 0) : (redact cfg s).content = s := by
  have hp : (redact cfg s).stats.pattern_redactions
      = (redactPatternStage cfg s.data).2.1
        + (redactAdditionalStage cfg (redactPatternStage cfg s.data).1).2.1 :=
    rfl
  have hee : (redact cfg s).stats.entropy_redactions
      = (if cfg.enable_entropy_detection = true then
          apply_entropy_redaction cfg
            (redactAdditionalStage cfg (redactPatternStage cfg s.data).1).1
        else
          ((redactAdditionalStage cfg (redactPatternStage cfg s.data).1).1,
            0, 0)).2.1 := rfl
  have hk : (redact cfg s).stats.key_redactions = 0 := rfl
  have hcont : (redact cfg s).content
      = ⟨(if cfg.enable_entropy_detection = true then
          apply_entropy_redaction cfg
            (redactAdditionalStage cfg (redactPatternStage cfg s.data).1).1
        else
          ((redactAdditionalStage cfg (redactPatternStage cfg s.data).1).1,
            0, 0)).1⟩ := rfl
  unfold RedactionStats.total at h
  rw [hp, hee, hk] at h
  rw [hcont]
  by_cases hent : cfg.enable_entropy_detection = true
  · rw [if_pos hent] at h ⊢
    have hz1 : (redactPatternStage cfg s.data).2.1 = 0 := by omega
    have hz2 : (redactAdditionalStage cfg
        (redactPatternStage cfg s.data).1).2.1 = 0 := by omega
    have hz3 : (apply_entropy_redaction cfg
        (redactAdditionalStage cfg (redactPatternStage cfg s.data).1).1).2.1
        = 0 := by omega
    rw [apply_entropy_redaction_zero _ _ hz3,
      redactAdditionalStage_zero _ _ hz2, redactPatternStage_zero _ _ hz1]
  · rw [if_neg hent] at h ⊢
    have hz1 : (redactPatternStage cfg s.data).2.1 = 0 := by omega
    have hz2 : (redactAdditionalStage cfg
        (redactPatternStage cfg s.data).1).2.1 = 0 := by omega
    simp only
    rw [redactAdditionalStage_zero _ _ hz2, redactPatternStage_zero _ _ hz1]

/-- Witness for C5 (amended): on `"hello"` the default redactor reports
zero redactions, so the content is returned unchanged. -/
theorem C5_redact_zero_total_identity_witness :
    (redact (defaultRedactorConfig (fun _ => false)) "hello").content
      = "hello" :=
  C5_redact_zero_total_identity (defaultRedactorConfig (fun _ => false))
    "hello" (by decide)

/-! ## Pack plan data model (`crates/bundle-schema/src/packplan.rs`) -/

/-- `ClusterProcess` (`packplan.rs`). -/
structure ClusterProcess where
  pid : Nat
  command : String
  args : List String
  user : String
  working_directory : Option String
  evidence_ref : Option String
  deriving Repr, DecidableEq

/-- `ClusterService` (`packplan.rs`). -/
structure ClusterService where
  name : String
  exec_start : Option String
  user : Option String
  working_directory : Option String
  environment : List (String × String)
  environment_files : List String
  evidence_ref : Option String
  deriving Repr, DecidableEq

/-- `ClusterPort` (`packplan.rs`). -/
structure ClusterPort where
  port : Nat
  protocol : String
  purpose : Option String
  evidence_ref : Option String
  deriving Repr, DecidableEq

/-- `EnvVarSpec` (`packplan.rs`). -/
structure EnvVarSpec where
  name : String
  required : Bool
  default_value : Option String
  description : Option String
  sensitive : Bool
  evidence_ref : Option String
  deriving Repr, DecidableEq

/-- `ConfigFileSpec` (`packplan.rs`). -/
structure ConfigFileSpec where
  source_path : String
  container_path : String
  templated : Bool
  template_vars : List String
  evidence_ref : Option String
  deriving Repr, DecidableEq

/-- `AppCluster` (`packplan.rs` lines 46–82).  The analyzer never
constructs a `ReadinessCheck`, so `readiness` is modelled as
`Option Unit`. -/
structure AppCluster where
  id : String
  name : String
  description : Option String
  app_type : String
  processes : List ClusterProcess
  services : List ClusterService
  ports : List ClusterPort
  env_vars : List EnvVarSpec
  config_files : List ConfigFileSpec
  log_paths : List String
  depends_on : List String
  external_deps : List String
  readiness : Option Unit
  confidence : ℚ
  evidence_refs : List String
  decisions : List Decision
  deriving Repr, DecidableEq

/-- `DependencyInfo` (`packplan.rs`). -/
structure DependencyInfo where
  id : String
  dep_type : String
  endpoint : String
  port : Option Nat
  used_by : List String
  evidence_refs : List String
  deriving Repr, DecidableEq

/-- `DagEdge` (`packplan.rs`); `from`/`to` are Lean keywords, renamed
`fromId`/`toId`. -/
structure DagEdge where
  fromId : String
  toId : String
  reason : String
  deriving Repr, DecidableEq

/-- `PackPlan` (`packplan.rs` lines 8–28).  `generated_at` is an opaque
timestamp; `analyze_bundle` never produces artifacts or warnings, so
those element types are simplified to `Unit`/`String`. -/
structure PackPlan where
  schema_version : String
  generated_at : Nat
  source_bundle_id : String
  clusters : List AppCluster
  external_dependencies : List DependencyInfo
  startup_dag : List DagEdge
  artifacts : List Unit
  overall_confidence : ℚ
  warnings : List String
  deriving Repr, DecidableEq

/-! ## Evidence, audit and bundle (`crates/bundle-schema/src/evidence.rs`,
`audit.rs`, `manifest.rs`) -/

/-- `EvidenceType` (`evidence.rs`). -/
inductive EvidenceType where
  | command_output
  | config_file
  | log_snippet
  | env_file
  | unit_file
  | file_content
  deriving Repr, DecidableEq

/-- `Evidence` (`evidence.rs` lines 46–69).  The content bytes are
modelled by the decoded string (all contents in scope are valid UTF-8);
`collected_at` is an opaque timestamp. -/
structure Evidence where
  id : String
  evidence_type : EvidenceType
  collected_at : Nat
  source_command : Option String
  size_bytes : Nat
  content_hash : String
  redacted : Bool
  bundle_path : String
  original_path : Option String
  content : Option String
  deriving Repr, DecidableEq

/-- `AuditEntry` (`audit.rs` lines 8–33); timestamps opaque. -/
structure AuditEntry where
  seq : Nat
  started_at : Nat
  completed_at : Nat
  duration_ms : Nat
  command : String
  exit_code : Option Int
  success : Bool
  stdout_bytes : Nat
  stderr_bytes : Nat
  evidence_ref : String
  error : Option String
  category : String
  deriving Repr, DecidableEq

/-- `Bundle` (`manifest.rs` lines 8–14); the `HashMap`s for evidence and
checksums are association lists with unique keys. -/
structure Bundle where
  manifest : Manifest
  audit : List AuditEntry
  evidence : List (String × Evidence)
  checksums : List (String × String)
  deriving Repr, DecidableEq

/-- `HashMap::get`: association-list lookup (keys are unique). -/
def lookupAssoc {α : Type} (m : List (String × α)) (k : String) : Option α :=
  (m.find? (fun e => e.1 == k)).map (fun e => e.2)

/-- Turn an `Option<String>` into the `Vec<String>` produced by
`opt.iter().cloned().collect()`. -/
def optToList : Option String → List String
  | some s => [s]
  | none => []

/-! ## Clustering (`crates/analyzer/src/clustering.rs`) -/

/-- System-service name patterns skipped by pass 1
(`clustering.rs` lines 30–33). -/
def clustering_system_patterns : List String :=
  ["systemd-", "dbus", "polkit", "getty", "sshd", "cron",
   "rsyslog", "auditd", "firewalld", "networkmanager"]

/-- The `type_patterns` table of `detect_app_type`
(`clustering.rs` lines 268–288). -/
def detect_app_type_patterns : List (String × String) :=
  [("nginx", "proxy"), ("apache", "web"), ("httpd", "web"),
   ("java", "api"), ("node", "api"), ("python", "api"), ("ruby", "api"),
   ("dotnet", "api"), ("postgres", "database"), ("mysql", "database"),
   ("mariadb", "database"), ("redis", "cache"), ("memcached", "cache"),
   ("rabbitmq", "messagequeue"), ("kafka", "messagequeue"),
   ("elasticsearch", "search"), ("worker", "worker"), ("celery", "worker"),
   ("sidekiq", "worker")]

/-- The port-hint table of `detect_app_type`
(`clustering.rs` lines 297–311). -/
def portTypeHint (p : Nat) : Option String :=
  if p == 80 || p == 443 || p == 8080 || p == 8443 then some "web"
  else if p == 3000 || p == 5000 || p == 8000 then some "api"
  else if p == 5432 then some "database"
  else if p == 3306 then some "database"
  else if p == 6379 then some "cache"
  else if p == 5672 || p == 15672 then some "messagequeue"
  else none

/-- `detect_app_type` (`clustering.rs` lines 259–314): first matching
name/exec pattern wins; otherwise the first main-pid port with a hint. -/
def detect_app_type (service : ServiceInfo) (bundle : Bundle) : String :=
  let name_lower := toLowerStr service.name
  let exec_lower := toLowerStr (service.exec_start.getD "")
  match detect_app_type_patterns.find?
      (fun pr => strContainsStr name_lower pr.1 || strContainsStr exec_lower pr.1) with
  | some pr => pr.2
  | none =>
    match service.main_pid with
    | some main_pid =>
      match (bundle.manifest.ports.filter
          (fun port => port.pid == some main_pid)).findSome?
          (fun port => portTypeHint port.local_port) with
      | some t => t
      | none => "unknown"
    | none => "unknown"

/-- Rust `str::ends_with`. -/
def strEndsWith (h p : String) : Bool := listIsPrefixOf p.data.reverse h.data.reverse

/-- Rust `str::trim_end_matches`: repeatedly strip the suffix. -/
def trimEndMatchesAux (pat : String) : Nat → List Char → List Char
  | 0, l => l
  | fuel + 1, l =>
    if pat.data ≠ [] ∧ listIsPrefixOf pat.data.reverse l.reverse then
      trimEndMatchesAux pat fuel (l.take (l.length - pat.data.length))
    else l

def trimEndMatches (s pat : String) : String :=
  ⟨trimEndMatchesAux pat s.data.length s.data⟩

/-- The cluster-name normalisation of pass 1 (`clustering.rs` lines
39–43): strip trailing `.service`, then `.`/`_` → `-`. -/
def clusterNameOf (serviceName : String) : String :=
  ⟨(trimEndMatches serviceName ".service").data.map
    (fun c => if c == '.' || c == '_' then '-' else c)⟩

/-- The `EnvVarSpec`s pass 1 derives from `service.environment`
(`clustering.rs` lines 123–134); values are never copied into the plan. -/
def serviceEnvVarSpecs (service : ServiceInfo) : List EnvVarSpec :=
  service.environment.map (fun nv =>
    { name := nv.1, required := true, default_value := none,
      description := none, sensitive := is_sensitive_key nv.1,
      evidence_ref := service.evidence_ref })

/-- The `ConfigFileSpec`s and `EnvVarSpec`s pass 1 derives from the
service's `EnvironmentFile` entries (`clustering.rs` lines 137–165). -/
def envFileSpecs (bundle : Bundle) (service : ServiceInfo) :
    List ConfigFileSpec × List EnvVarSpec :=
  service.environment_files.foldl
    (fun acc env_file =>
      match bundle.manifest.environment_files.find?
          (fun f => f.path == env_file) with
      | some file_info =>
        (acc.1 ++ [{ source_path := env_file, container_path := env_file,
                     templated := true,
                     template_vars := file_info.variable_names,
                     evidence_ref := file_info.evidence_ref }],
         acc.2 ++ file_info.variable_names.map (fun var_name =>
           { name := var_name, required := true, default_value := none,
             description := some ("From environment file: " ++ env_file),
             sensitive := is_sensitive_key var_name,
             evidence_ref := file_info.evidence_ref }))
      | none => acc)
    ([], [])

/-- The working-directory config files of pass 1
(`clustering.rs` lines 167–180). -/
def workingDirConfigSpecs (bundle : Bundle) (service : ServiceInfo) :
    List ConfigFileSpec :=
  match service.working_directory with
  | some wd =>
    (bundle.manifest.config_files.filter
        (fun config => strStartsWith config.path wd)).map
      (fun config =>
        { source_path := config.path, container_path := config.path,
            templated := false, template_vars := [],
            evidence_ref := config.attachment_ref })
  | none => []

/-- The processes and ports pass 1 attaches for `main_pid`
(`clustering.rs` lines 88–121), together with the per-port decisions. -/
def mainPidProcesses (bundle : Bundle) (service : ServiceInfo) :
    List ClusterProcess :=
  match service.main_pid with
  | some main_pid =>
    match bundle.manifest.processes.find? (fun p => p.pid == main_pid) with
    | some p =>
      [{ pid := p.pid, command := p.command, args := p.args, user := p.user,
           working_directory := p.working_directory,
           evidence_ref := p.evidence_ref }]
    | none => []
  | none => []

def mainPidPorts (bundle : Bundle) (service : ServiceInfo) :
    List ClusterPort × List Decision :=
  match service.main_pid with
  | some main_pid =>
    (bundle.manifest.ports.filter (fun port => port.pid == some main_pid)).foldl
      (fun acc port =>
        (acc.1 ++ [{ port := port.local_port, protocol := port.protocol,
                     purpose := none, evidence_ref := port.evidence_ref }],
         acc.2 ++ [⟨"Service listens on port " ++ toString port.local_port,
            "Port found via ss/netstat associated with service PID",
            optToList port.evidence_ref, 95/100⟩]))
      ([], [])
  | none => ([], [])

/-- One pass-1 cluster (`clustering.rs` lines 38–184). -/
def buildServiceCluster (bundle : Bundle) (pfx : String) (cluster_id : Nat)
    (service : ServiceInfo) : AppCluster :=
  let efs := envFileSpecs bundle service
  { id := pfx ++ "-" ++ toString cluster_id,
    name := clusterNameOf service.name,
    description := service.description,
    app_type := detect_app_type service bundle,
    processes := mainPidProcesses bundle service,
    services := [{ name := service.name, exec_start := service.exec_start,
                   user := service.user,
                   working_directory := service.working_directory,
                   environment := service.environment,
                   environment_files := service.environment_files,
                   evidence_ref := service.evidence_ref }],
    ports := (mainPidPorts bundle service).1,
    env_vars := serviceEnvVarSpecs service ++ efs.2,
    config_files := efs.1 ++ workingDirConfigSpecs bundle service,
    log_paths := [],
    depends_on := [],
    external_deps := [],
    readiness := none,
    confidence := 0,
    evidence_refs := optToList service.evidence_ref,
    decisions :=
      [⟨"Include service " ++ service.name ++ " in cluster",
        "Service is a business application based on naming and configuration",
        optToList service.evidence_ref, 8/10⟩] ++ (mainPidPorts bundle service).2 }

/-- Rendering of `format!("{:.2}", score)` in the pass-2 decision reason.
The exact two-decimal `f64` formatting is immaterial to every theorem
below; any deterministic rendering of the score serves. -/
def formatScore (q : ℚ) : String := toString q.num ++ "/" ++ toString q.den

/-- One pass-2 standalone-process cluster (`clustering.rs` lines 207–249). -/
def buildStandaloneCluster (bundle : Bundle) (pfx : String) (cluster_id : Nat)
    (score : ProcessScore) (process : ProcessInfo) : AppCluster :=
  { id := pfx ++ "-" ++ toString cluster_id,
    name := score.name,
    description := some ("Standalone process: " ++ process.full_cmdline),
    app_type := "unknown",
    processes := [{ pid := process.pid, command := process.command,
                    args := process.args, user := process.user,
                    working_directory := process.working_directory,
                    evidence_ref := process.evidence_ref }],
    services := [],
    ports := (bundle.manifest.ports.filter
        (fun port => port.pid == some process.pid)).map
      (fun port => { port := port.local_port, protocol := port.protocol,
                     purpose := none, evidence_ref := port.evidence_ref }),
    env_vars := [],
    config_files := [],
    log_paths := [],
    depends_on := [],
    external_deps := [],
    readiness := none,
    confidence := 0,
    evidence_refs := optToList process.evidence_ref,
    decisions := [⟨"Create cluster for process " ++ process.command,
      "High business relevance score: " ++ formatScore score.score,
      optToList process.evidence_ref, score.score⟩] }

/-- `cluster_applications` (`clustering.rs` lines 12–256).  Pass 2
iterates the scores `HashMap`, whose iteration order is unspecified in
Rust; the model therefore takes the iteration sequence `scoresIter` as an
explicit argument — a legitimate run supplies some permutation of
`scoreProcesses bundle.manifest`. -/
def cluster_applications (bundle : Bundle)
    (scoresIter : List (Nat × ProcessScore)) (pfx : String) :
    List AppCluster :=
  let pass1 := bundle.manifest.services.foldl
    (fun (st : List AppCluster × List String × Nat) service =>
      if st.2.1.contains service.name then st
      else if clustering_system_patterns.any
          (fun p => strContainsStr (toLowerStr service.name) p) then st
      else
        (st.1 ++ [buildServiceCluster bundle pfx st.2.2 service],
         st.2.1 ++ [service.name], st.2.2 + 1))
    ([], [], 0)
  let pass2 := scoresIter.foldl
    (fun (st : List AppCluster × Nat) ps =>
      if !ps.2.is_business_process then st
      else if st.1.any (fun c => c.processes.any (fun p => p.pid == ps.1)) then st
      else
        match bundle.manifest.processes.find? (fun p => p.pid == ps.1) with
        | none => st
        | some process =>
          (st.1 ++ [buildStandaloneCluster bundle pfx st.2 ps.2 process],
           st.2 + 1))
    (pass1.1, pass1.2.2)
  pass2.1

/-! ## Dependency inference (`crates/analyzer/src/dependencies.rs`) -/

/-- `ENDPOINT_PATTERN` (`dependencies.rs` lines 12–21): URI schemes,
`host=`-style assignments, or bare IPv4 with optional port.  The unused
capture groups are omitted (`caps.get(0)` is all the caller reads). -/
def ENDPOINT_PATTERN : RE :=
  reAltList
    [reSeqList
      [reAltList [reStrCI "mongodb", reStrCI "mysql", reStrCI "postgres",
        reStrCI "postgresql", reStrCI "redis", reStrCI "amqp",
        reStrCI "http", reStrCI "https"],
       reStr "://", rePlus reNonWs],
     reSeqList
      [reAltList [reStrCI "host", reStrCI "hostname", reStrCI "server",
        reStrCI "endpoint"],
       .star reWs, .cls (fun c => c == '=' || c == ':'), .star reWs,
       rePlus (.cls (fun c => !isWsChar c && c != ','))],
     reSeqList
      [reSeqList [reDigit, reOpt (.seq reDigit (reOpt reDigit))],
       reChar '.',
       reSeqList [reDigit, reOpt (.seq reDigit (reOpt reDigit))],
       reChar '.',
       reSeqList [reDigit, reOpt (.seq reDigit (reOpt reDigit))],
       reChar '.',
       reSeqList [reDigit, reOpt (.seq reDigit (reOpt reDigit))],
       reOpt (.seq (reChar ':') (rePlus reDigit))]]

/-- `DB_HOST_PATTERN` (`dependencies.rs` lines 24–30); the host is capture
group 1. -/
def DB_HOST_PATTERN : RE :=
  reSeqList
    [reAltList [reStrCI "database", reStrCI "db", reStrCI "redis",
      reStrCI "cache", reStrCI "mongo", reStrCI "postgres", reStrCI "mysql",
      reStrCI "rabbit", reStrCI "kafka"],
     reOpt reUnderDash,
     reAltList [reStrCI "host", reStrCI "server", reStrCI "endpoint",
      reStrCI "url"],
     .star reWs, .cls (fun c => c == '=' || c == ':'), .star reWs,
     .group 1 (rePlus (.cls (fun c => !isWsChar c && c != ',')))]

/-- Rust `str::parse::<u16>`: optional `+`, then ASCII digits, value at
most 65535. -/
def parseU16 (l : List Char) : Option Nat :=
  let l' := match l with
    | '+' :: rest => rest
    | _ => l
  if l'.isEmpty then none
  else if l'.all isAsciiDigit then
    let v := l'.foldl (fun a c => a * 10 + (c.toNat - 48)) 0
    if v ≤ 65535 then some v else none
  else none

/-- Index of the last `:` in the character list (`str::rfind`). -/
def rfindColon (l : List Char) : Option Nat :=
  (l.reverse.findIdx? (fun c => c == ':')).map (fun i => l.length - 1 - i)

/-- `extract_port_from_endpoint` (`dependencies.rs` lines 167–196). -/
def extract_port_from_endpoint (endpoint : String) : Option Nat :=
  let viaColon :=
    match rfindColon endpoint.data with
    | some idx =>
      let p0 := endpoint.data.drop (idx + 1)
      let p1 := p0.takeWhile (fun c => c != '/')
      let p2 := p1.takeWhile (fun c => c != '?')
      parseU16 p2
    | none => none
  match viaColon with
  | some p => some p
  | none =>
    if strStartsWith endpoint "postgres://"
      || strStartsWith endpoint "postgresql://" then some 5432
    else if strStartsWith endpoint "mysql://" then some 3306
    else if strStartsWith endpoint "redis://" then some 6379
    else if strStartsWith endpoint "mongodb://" then some 27017
    else if strStartsWith endpoint "amqp://" then some 5672
    else if strStartsWith endpoint "http://" then some 80
    else if strStartsWith endpoint "https://" then some 443
    else none

/-- `detect_dependency_type` (`dependencies.rs` lines 199–226). -/
def detect_dependency_type (endpoint : String) (port : Option Nat) : String :=
  let e := toLowerStr endpoint
  if strStartsWith e "postgres" || strStartsWith e "mysql" then "database"
  else if strStartsWith e "redis" || strStartsWith e "memcached" then "cache"
  else if strStartsWith e "amqp" || strContainsStr e "rabbit"
      || strContainsStr e "kafka" then "messagequeue"
  else if strStartsWith e "mongodb" then "database"
  else
    match port with
    | some 5432 => "database"
    | some 3306 => "database"
    | some 27017 => "database"
    | some 6379 => "cache"
    | some 11211 => "cache"
    | some 5672 => "messagequeue"
    | some 15672 => "messagequeue"
    | some 9092 => "messagequeue"
    | some 9200 => "search"
    | some 9300 => "search"
    | some 80 => "api"
    | some 443 => "api"
    | some 8080 => "api"
    | _ => "unknown"

/-- The port→cluster map of `detect_dependencies`
(`dependencies.rs` lines 38–43): `HashMap` insertion in iteration order,
so a later insert for the same port wins. -/
def port_to_cluster (clusters : List AppCluster) : List (Nat × String) :=
  clusters.foldl
    (fun acc c => c.ports.foldl (fun acc p => acc ++ [(p.port, c.id)]) acc) []

/-- Lookup in an insertion-ordered map where the latest insert wins
(`HashMap::insert` overwrite semantics). -/
def lookupLast (m : List (Nat × String)) (k : Nat) : Option String :=
  (m.reverse.find? (fun e => e.1 == k)).map (fun e => e.2)

/-- State threaded through `detect_dependencies` for one cluster: the
cluster being mutated, the (function-local) accumulated `DependencyInfo`s,
and the global `dep_id` counter. -/
structure DepState where
  cluster : AppCluster
  externals : List DependencyInfo
  depId : Nat
  deriving Repr, DecidableEq

/-- The external-dependency branch of the endpoint loop
(`dependencies.rs` lines 79–99). -/
def recordExternalDep (endpoint : String) (port : Option Nat)
    (configPath evidenceRef : String) (st : DepState) : DepState :=
  let dep : DependencyInfo :=
    { id := "ext-" ++ toString st.depId,
      dep_type := detect_dependency_type endpoint port,
      endpoint := endpoint, port := port, used_by := [st.cluster.id],
      evidence_refs := [evidenceRef] }
  { cluster := { st.cluster with
      external_deps := st.cluster.external_deps ++ [dep.id],
      decisions := st.cluster.decisions ++
        [⟨"External dependency detected: " ++ endpoint,
          "Found in config file: " ++ configPath, [evidenceRef], 8/10⟩] },
    externals := st.externals ++ [dep],
    depId := st.depId + 1 }

/-- One iteration of the endpoint loop (`dependencies.rs` lines 54–100):
an endpoint whose port maps to a *different* cluster records an internal
dependency (and nothing else); any other endpoint records an external
dependency. -/
def processEndpointMatch (portMap : List (Nat × String))
    (configPath evidenceRef : String) (endpoint : String) (st : DepState) :
    DepState :=
  let port := extract_port_from_endpoint endpoint
  match port.bind (fun p => (lookupLast portMap p).map (fun d => (p, d))) with
  | some pd =>
    if pd.2 != st.cluster.id then
      if st.cluster.depends_on.contains pd.2 then st
      else
        { st with cluster := { st.cluster with
            depends_on := st.cluster.depends_on ++ [pd.2],
            decisions := st.cluster.decisions ++
              [⟨"Depends on cluster " ++ pd.2 ++ " (port " ++ toString pd.1
                  ++ ")",
                "Found endpoint " ++ endpoint ++ " in config " ++ configPath,
                [evidenceRef], 9/10⟩] } }
    else recordExternalDep endpoint port configPath evidenceRef st
  | none => recordExternalDep endpoint port configPath evidenceRef st

/-- One iteration of the DB-host loop (`dependencies.rs` lines 102–132). -/
def processDbHostMatch (configPath evidenceRef : String) (host : String)
    (st : DepState) : DepState :=
  if host == "localhost" || host == "127.0.0.1" then st
  else
    let dep : DependencyInfo :=
      { id := "ext-" ++ toString st.depId, dep_type := "database",
        endpoint := host, port := none, used_by := [st.cluster.id],
        evidence_refs := [evidenceRef] }
    { cluster := { st.cluster with
        external_deps := st.cluster.external_deps ++ [dep.id],
        decisions := st.cluster.decisions ++
          [⟨"Database dependency detected: " ++ host,
            "Found DB_HOST pattern in config: " ++ configPath,
            [evidenceRef], 85/100⟩] },
      externals := st.externals ++ [dep],
      depId := st.depId + 1 }

/-- Process one config file of a cluster (`dependencies.rs` lines 46–136):
run the endpoint scan, then the DB-host scan, over the evidence content. -/
def processConfig (bundle : Bundle) (portMap : List (Nat × String))
    (config : ConfigFileSpec) (st : DepState) : DepState :=
  match config.evidence_ref with
  | none => st
  | some evidenceRef =>
    match lookupAssoc bundle.evidence evidenceRef with
    | none => st
    | some evidence =>
      match evidence.content with
      | none => st
      | some content =>
        let st1 := (reFindIter ENDPOINT_PATTERN content.data).foldl
          (fun st m =>
            processEndpointMatch portMap config.source_path evidenceRef
              ⟨sliceChars content.data m.1 m.2.1⟩ st) st
        (reFindIter DB_HOST_PATTERN content.data).foldl
          (fun st m =>
            match m.2.2.find? (fun g => g.1 == 1) with
            | some g =>
              processDbHostMatch config.source_path evidenceRef
                ⟨sliceChars content.data g.2.1 g.2.2⟩ st
            | none => st) st1

/-- The dependency-suggesting env-var name table
(`dependencies.rs` lines 143–148). -/
def dep_env_patterns : List (String × List String) :=
  [("database", ["database_url", "db_url", "db_host", "postgres", "mysql"]),
   ("cache", ["redis_url", "redis_host", "cache_url", "memcached"]),
   ("messagequeue", ["amqp_url", "rabbitmq", "kafka"]),
   ("api", ["api_url", "api_host", "service_url"])]

/-- The env-var scan (`dependencies.rs` lines 138–160): a decision per
matching dependency type, but never a `DependencyInfo`. -/
def processEnvVars (cluster : AppCluster) : AppCluster :=
  cluster.env_vars.foldl
    (fun c env_var =>
      dep_env_patterns.foldl
        (fun c tp =>
          if tp.2.any (fun p => strContainsStr (toLowerStr env_var.name) p) then
            { c with decisions := c.decisions ++
              [⟨"Likely " ++ tp.1 ++ " dependency from env var " ++ env_var.name,
                "Environment variable name suggests external dependency",
                optToList env_var.evidence_ref, 7/10⟩] }
          else c) c)
    cluster

/-- `detect_dependencies` (`dependencies.rs` lines 33–164).  Returns the
updated clusters together with the function-local `external_deps` vector —
which the function never hands back to its caller (it is dropped when
`detect_dependencies` returns, see `analyze_bundle`). -/
def detect_dependencies (bundle : Bundle) (clusters : List AppCluster) :
    List AppCluster × List DependencyInfo :=
  let portMap := port_to_cluster clusters
  let final := clusters.foldl
    (fun (acc : List AppCluster × List DependencyInfo × Nat) cluster =>
      let st0 : DepState := ⟨cluster, acc.2.1, acc.2.2⟩
      let st1 := cluster.config_files.foldl
        (fun st config => processConfig bundle portMap config st) st0
      let c2 := processEnvVars st1.cluster
      (acc.1 ++ [c2], st1.externals, st1.depId))
    ([], [], 0)
  (final.1, final.2.1)

/-- `build_startup_dag` (`dependencies.rs` lines 229–262): one edge
`dep → cluster` per `depends_on` entry whose id names a cluster. -/
def build_startup_dag (clusters : List AppCluster) : List DagEdge :=
  clusters.foldl
    (fun es c =>
      es ++ c.depends_on.filterMap (fun dep =>
        if clusters.any (fun k => k.id == dep) then
          some ⟨dep, c.id, "Cluster " ++ c.id ++ " depends on " ++ dep⟩
        else none))
    []

/-- Kahn-style cycle test: repeatedly remove a node with no incoming edge
from the remaining nodes; stuck with nodes left ⟺ cycle. -/
def hasCycleAux (edges : List (String × String)) :
    Nat → List String → Bool
  | 0, nodes => !nodes.isEmpty
  | fuel + 1, nodes =>
    if nodes.isEmpty then false
    else
      match nodes.find?
          (fun n => !(edges.any (fun e => nodes.contains e.1 && e.2 == n))) with
      | none => true
      | some n => hasCycleAux edges fuel (nodes.erase n)

/-- The condition under which `build_startup_dag` emits its
`tracing::warn!("Circular dependencies detected in startup DAG")`
(`dependencies.rs` lines 257–259): `petgraph::algo::toposort` fails
exactly when the dependency digraph has a cycle. -/
def startup_dag_cycle_warning (clusters : List AppCluster) : Bool :=
  let nodes := clusters.map (fun c => c.id)
  let edges := (build_startup_dag clusters).map (fun e => (e.fromId, e.toId))
  hasCycleAux edges nodes.length nodes

/-! ## The analysis pipeline (`crates/analyzer/src/lib.rs`) -/

/-- `calculate_cluster_confidence` (`confidence.rs` lines 36–73) applied
to a cluster. -/
def calculate_cluster_confidence (c : AppCluster) : AppCluster :=
  { c with confidence := clusterConfidence c.decisions }

/-- `analyze_bundle` (`lib.rs` lines 14–53).  `scoresIter` is the
iteration sequence of the scores `HashMap` (a legitimate run supplies a
permutation of `scoreProcesses bundle.manifest`); `now` stands for
`chrono::Utc::now()`.  Note the source drops the `DependencyInfo` list
computed by `detect_dependencies` and hard-codes
`external_dependencies: vec![]`, `warnings: vec![]`,
`overall_confidence: 0.0` (lib.rs lines 45–49). -/
def analyze_bundle (bundle : Bundle) ( cluster_prefix : String)
    (min_confidence : ℚ) (scoresIter : List (Nat × ProcessScore))
    (now : Nat) : PackPlan :=
  let clusters0 := cluster_applications bundle scoresIter cluster_prefix
  let clusters1 := (detect_dependencies bundle clusters0).1
  let dag := build_startup_dag clusters1
  let clusters2 := clusters1.map calculate_cluster_confidence
  let clusters3 := clusters2.filter (fun c => min_confidence ≤ c.confidence)
  { schema_version := "1.0.0",
    generated_at := now,
    source_bundle_id := bundle.manifest.collection_id,
    clusters := clusters3,
    external_dependencies := [],
    startup_dag := dag,
    artifacts := [],
    overall_confidence := 0,
    warnings := [] }

/-! ## Concrete fixtures for the analysis-pipeline claims -/

/-- A bundle with one business service whose config file contains an
external `mysql://` endpoint (no cluster owns port 9999). -/
def bundleExtDep : Bundle :=
  { manifest :=
      { schema_version := "1.0.0", collection_id := "cid-1",
        system := { hostname := "h", os_type := "linux", os_version := none,
                    kernel_version := none, architecture := none },
        processes := [],
        services :=
          [{ name := "app.service", description := none, state := "active",
             sub_state := none, exec_start := some "/opt/app/run",
             working_directory := some "/opt/app", user := none, group := none,
             environment := [], environment_files := [],
             unit_file_path := none, main_pid := none,
             evidence_ref := some "evidence/svc.txt" }],
        ports := [],
        config_files :=
          [{ path := "/opt/app/app.conf", size_bytes := 10,
             content_hash := none, attachment_ref := some "attachments/a1",
             discovery_method := "working_directory" }],
        environment_files := [] },
    audit := [],
    evidence :=
      [("attachments/a1",
        { id := "a1", evidence_type := .config_file, collected_at := 0,
          source_command := none, size_bytes := 27, content_hash := "h1",
          redacted := true, bundle_path := "attachments/a1",
          original_path := none,
          content := some "mysql://db.example.com:9999" })],
    checksums := [] }

theorem clusterConfidence_nonneg (ds : List Decision)
    (h : ∀ d ∈ ds, 0 ≤ d.confidence) : 0 ≤ clusterConfidence ds := by
  unfold clusterConfidence
  split
  · exact le_refl 0
  · have hf := confidence_foldl_eq ds 0 0
    simp only [zero_add] at hf
    simp only [hf]
    apply mul_nonneg
    · split
      · next hpos =>
        apply div_nonneg
        · apply List.sum_nonneg
          intro x hx
          rcases List.mem_map.mp hx with ⟨d, hd, rfl⟩
          apply mul_nonneg (h d hd)
          unfold decisionWeight
          split <;> norm_num
        · exact le_of_lt hpos
      · exact le_refl 0
    · positivity

theorem foldl_preserve {α β : Type} (P : α → Prop) (f : α → β → α)
    (hf : ∀ a b, P a → P (f a b)) : ∀ (l : List β) (a : α), P a → P (l.foldl f a) := by
  intro l
  induction l with
  | nil => intro a ha; exact ha
  | cons b t ih => intro a ha; exact ih _ (hf a b ha)

theorem le_portFloor (m : Manifest) (p : ProcessInfo) (s : ℚ) :
    s ≤ portFloor m p s := by
  unfold portFloor
  split
  · exact le_max_left _ _
  · exact le_refl _

theorem le_serviceFloor (m : Manifest) (p : ProcessInfo) (s : ℚ) :
    s ≤ serviceFloor m p s := by
  unfold serviceFloor
  induction m.services generalizing s with
  | nil => exact le_refl _
  | cons sv t ih =>
    simp only [List.foldl_cons]
    refine le_trans ?_ (ih _)
    split
    · exact le_max_left _ _
    · exact le_refl _

theorem le_userBonus (p : ProcessInfo) (s : ℚ) : s ≤ userBonus p s := by
  unfold userBonus
  split
  · linarith
  · exact le_refl _

theorem le_cmdlineBonus (p : ProcessInfo) (s : ℚ) : s ≤ cmdlineBonus p s := by
  unfold cmdlineBonus
  split
  · linarith
  · exact le_refl _

theorem scoreBase_nonneg (p : ProcessInfo) : 0 ≤ scoreBase p := by
  unfold scoreBase
  split
  · norm_num
  · split
    · norm_num
    · split <;> norm_num

theorem scoreVal_nonneg (m : Manifest) (p : ProcessInfo) : 0 ≤ scoreVal m p :=
  le_trans (scoreBase_nonneg p)
    (le_trans (le_portFloor m p _)
      (le_trans (le_serviceFloor m p _)
        (le_trans (le_userBonus p _) (le_cmdlineBonus p _))))

theorem scoreProcesses_nonneg (m : Manifest) :
    ∀ e ∈ scoreProcesses m, 0 ≤ e.2.score := by
  intro e he
  rcases List.mem_map.mp he with ⟨p, _, rfl⟩
  exact scoreVal_nonneg m p

/-- All decisions of a cluster have non-negative confidence. -/
def decsOK (c : AppCluster) : Prop := ∀ d ∈ c.decisions, 0 ≤ d.confidence

theorem mainPidPorts_decs_nonneg (bundle : Bundle) (service : ServiceInfo) :
    ∀ d ∈ (mainPidPorts bundle service).2, 0 ≤ d.confidence := by
  unfold mainPidPorts
  split
  · next main_pid _ =>
    have key : ∀ (l : List PortInfo) (init : List ClusterPort × List Decision),
        (∀ d ∈ init.2, 0 ≤ d.confidence) →
        ∀ d ∈ (l.foldl
          (fun acc port =>
            (acc.1 ++ [{ port := port.local_port, protocol := port.protocol,
                         purpose := none, evidence_ref := port.evidence_ref }],
             acc.2 ++ [⟨"Service listens on port " ++ toString port.local_port,
                "Port found via ss/netstat associated with service PID",
                optToList port.evidence_ref, 95/100⟩])) init).2,
        0 ≤ d.confidence := by
      intro l
      induction l with
      | nil => intro init h; exact h
      | cons port t ih =>
        intro init h
        simp only [List.foldl_cons]
        apply ih
        intro d hd
        rcases List.mem_append.mp hd with hd | hd
        · exact h d hd
        · rcases List.mem_singleton.mp hd with rfl
          norm_num
    exact key _ ([], []) (by simp)
  · simp

theorem buildServiceCluster_decsOK (bundle : Bundle) (pfx : String)
    (cid : Nat) (service : ServiceInfo) :
    decsOK (buildServiceCluster bundle pfx cid service) := by
  intro d hd
  unfold buildServiceCluster at hd
  simp only at hd
  rcases List.mem_append.mp hd with hd | hd
  · rcases List.mem_singleton.mp hd with rfl
    norm_num
  · exact mainPidPorts_decs_nonneg bundle service d hd

theorem buildStandaloneCluster_decsOK (bundle : Bundle) (pfx : String)
    (cid : Nat) (score : ProcessScore) (process : ProcessInfo)
    (hs : 0 ≤ score.score) :
    decsOK (buildStandaloneCluster bundle pfx cid score process) := by
  intro d hd
  unfold buildStandaloneCluster at hd
  simp only at hd
  rcases List.mem_singleton.mp hd with rfl
  exact hs

theorem cluster_applications_decsOK (bundle : Bundle)
    (scoresIter : List (Nat × ProcessScore)) (pfx : String)
    (hs : ∀ e ∈ scoresIter, 0 ≤ e.2.score) :
    ∀ c ∈ cluster_applications bundle scoresIter pfx, decsOK c := by
  unfold cluster_applications
  simp only
  have pass1 : ∀ (l : List ServiceInfo) (st : List AppCluster × List String × Nat),
      (∀ c ∈ st.1, decsOK c) →
      ∀ c ∈ (l.foldl
        (fun (st : List AppCluster × List String × Nat) service =>
          if st.2.1.contains service.name then st
          else if clustering_system_patterns.any
              (fun p => strContainsStr (toLowerStr service.name) p) then st
          else
            (st.1 ++ [buildServiceCluster bundle pfx st.2.2 service],
             st.2.1 ++ [service.name], st.2.2 + 1)) st).1, decsOK c := by
    intro l
    induction l with
    | nil => intro st h; exact h
    | cons service t ih =>
      intro st h
      simp only [List.foldl_cons]
      apply ih
      split
      · exact h
      · split
        · exact h
        · intro c hc
          rcases List.mem_append.mp hc with hc | hc
          · exact h c hc
          · rcases List.mem_singleton.mp hc with rfl
            exact buildServiceCluster_decsOK bundle pfx _ service
  have pass2 : ∀ (l : List (Nat × ProcessScore)) (st : List AppCluster × Nat),
      (∀ e ∈ l, 0 ≤ e.2.score) → (∀ c ∈ st.1, decsOK c) →
      ∀ c ∈ (l.foldl
        (fun (st : List AppCluster × Nat) ps =>
          if !ps.2.is_business_process then st
          else if st.1.any (fun c => c.processes.any (fun p => p.pid == ps.1))
            then st
          else
            match bundle.manifest.processes.find? (fun p => p.pid == ps.1) with
            | none => st
            | some process =>
              (st.1 ++ [buildStandaloneCluster bundle pfx st.2 ps.2 process],
               st.2 + 1)) st).1, decsOK c := by
    intro l
    induction l with
    | nil => intro st _ h; exact h
    | cons ps t ih =>
      intro st hl h
      simp only [List.foldl_cons]
      apply ih _ (fun e he => hl e (List.mem_cons_of_mem _ he))
      split
      · exact h
      · split
        · exact h
        · split
          · exact h
          · intro c hc
            rcases List.mem_append.mp hc with hc | hc
            · exact h c hc
            · rcases List.mem_singleton.mp hc with rfl
              exact buildStandaloneCluster_decsOK bundle pfx _ _ _
                (hl ps (List.mem_cons_self _ _))
  exact pass2 scoresIter _ hs (pass1 bundle.manifest.services ([], [], 0) (by simp))

theorem recordExternalDep_decsOK (endpoint : String) (port : Option Nat)
    (configPath evidenceRef : String) (st : DepState)
    (h : decsOK st.cluster) : decsOK (recordExternalDep endpoint port
      configPath evidenceRef st).cluster := by
  intro d hd
  unfold recordExternalDep at hd
  simp only at hd
  rcases List.mem_append.mp hd with hd | hd
  · exact h d hd
  · rcases List.mem_singleton.mp hd with rfl
    norm_num

theorem processEndpointMatch_decsOK (portMap : List (Nat × String))
    (configPath evidenceRef endpoint : String) (st : DepState)
    (h : decsOK st.cluster) :
    decsOK (processEndpointMatch portMap configPath evidenceRef endpoint
      st).cluster := by
  unfold processEndpointMatch
  dsimp only
  split
  · split
    · split
      · exact h
      · intro d hd
        simp only at hd
        rcases List.mem_append.mp hd with hd | hd
        · exact h d hd
        · rcases List.mem_singleton.mp hd with rfl
          norm_num
    · exact recordExternalDep_decsOK _ _ _ _ _ h
  · exact recordExternalDep_decsOK _ _ _ _ _ h

theorem processDbHostMatch_decsOK (configPath evidenceRef host : String)
    (st : DepState) (h : decsOK st.cluster) :
    decsOK (processDbHostMatch configPath evidenceRef host st).cluster := by
  unfold processDbHostMatch
  split
  · exact h
  · intro d hd
    simp only at hd
    rcases List.mem_append.mp hd with hd | hd
    · exact h d hd
    · rcases List.mem_singleton.mp hd with rfl
      norm_num

theorem processConfig_decsOK (bundle : Bundle) (portMap : List (Nat × String))
    (config : ConfigFileSpec) (st : DepState) (h : decsOK st.cluster) :
    decsOK (processConfig bundle portMap config st).cluster := by
  unfold processConfig
  split
  · exact h
  · split
    · exact h
    · split
      · exact h
      · next content _ =>
        dsimp only
        apply foldl_preserve (fun (st : DepState) => decsOK st.cluster)
        · intro a m ha
          split
          · exact processDbHostMatch_decsOK _ _ _ _ ha
          · exact ha
        · apply foldl_preserve (fun (st : DepState) => decsOK st.cluster)
          · intro a m ha
            exact processEndpointMatch_decsOK _ _ _ _ _ ha
          · exact h

theorem processEnvVars_decsOK (cluster : AppCluster) (h : decsOK cluster) :
    decsOK (processEnvVars cluster) := by
  unfold processEnvVars
  apply foldl_preserve decsOK
  · intro a ev ha
    apply foldl_preserve decsOK
    · intro a tp ha
      split
      · intro d hd
        simp only at hd
        rcases List.mem_append.mp hd with hd | hd
        · exact ha d hd
        · rcases List.mem_singleton.mp hd with rfl
          norm_num
      · exact ha
    · exact ha
  · exact h

theorem detect_dependencies_decsOK (bundle : Bundle)
    (clusters : List AppCluster) (h : ∀ c ∈ clusters, decsOK c) :
    ∀ c ∈ (detect_dependencies bundle clusters).1, decsOK c := by
  unfold detect_dependencies
  simp only
  have key : ∀ (l : List AppCluster)
      (acc : List AppCluster × List DependencyInfo × Nat),
      (∀ c ∈ l, decsOK c) → (∀ c ∈ acc.1, decsOK c) →
      ∀ c ∈ (l.foldl
        (fun (acc : List AppCluster × List DependencyInfo × Nat) cluster =>
          let st0 : DepState := ⟨cluster, acc.2.1, acc.2.2⟩
          let st1 := cluster.config_files.foldl
            (fun st config =>
              processConfig bundle (port_to_cluster clusters) config st) st0
          let c2 := processEnvVars st1.cluster
          (acc.1 ++ [c2], st1.externals, st1.depId)) acc).1, decsOK c := by
    intro l
    induction l with
    | nil => intro acc _ hacc; exact hacc
    | cons cluster t ih =>
      intro acc hl hacc
      simp only [List.foldl_cons]
      apply ih _ (fun c hc => hl c (List.mem_cons_of_mem _ hc))
      intro c hc
      rcases List.mem_append.mp hc with hc | hc
      · exact hacc c hc
      · rcases List.mem_singleton.mp hc with rfl
        apply processEnvVars_decsOK
        apply foldl_preserve (fun (st : DepState) => decsOK st.cluster)
        · intro a cfg ha
          exact processConfig_decsOK bundle _ cfg a ha
        · exact hl cluster (List.mem_cons_self _ _)
  exact key clusters ([], [], 0) h (by simp)

/-- With `min_confidence = 0` and all decision confidences non-negative,
the confidence filter of `analyze_bundle` keeps every cluster. -/
theorem analyze_min0_clusters (bundle : Bundle) (pfx : String)
    (scoresIter : List (Nat × ProcessScore)) (now : Nat)
    (hs : ∀ e ∈ scoresIter, 0 ≤ e.2.score) :
    (analyze_bundle bundle pfx 0 scoresIter now).clusters
      = ((detect_dependencies bundle
          (cluster_applications bundle scoresIter pfx)).1).map
        calculate_cluster_confidence := by
  have h := detect_dependencies_decsOK bundle
    (cluster_applications bundle scoresIter pfx)
    (cluster_applications_decsOK bundle scoresIter pfx hs)
  show List.filter _ _ = _
  apply List.filter_eq_self.mpr
  intro c hc
  rcases List.mem_map.mp hc with ⟨c0, hc0, rfl⟩
  simp only [decide_eq_true_eq]
  exact clusterConfidence_nonneg c0.decisions (h c0 hc0)

/-- **C1.** The claim asserts every id in a cluster's `external_deps`
names a `DependencyInfo` in the plan's `external_dependencies`.  The code
violates it: `detect_dependencies` collects the `DependencyInfo`s in a
local vector that it never returns, and `analyze_bundle` hard-codes
`external_dependencies: vec![]`; on `bundleExtDep` the only cluster ends
with `external_deps = ["ext-0"]` while the plan's `external_dependencies`
is empty, and the dropped local vector is non-empty. -/
theorem C1_external_deps_dropped :
    ((analyze_bundle bundleExtDep "app" 0 [] 0).clusters.map
        (fun c => c.external_deps) = [["ext-0"]])
    ∧ (analyze_bundle bundleExtDep "app" 0 [] 0).external_dependencies = []
    ∧ (detect_dependencies bundleExtDep
        (cluster_applications bundleExtDep [] "app")).2
      = [{ id := "ext-0", dep_type := "database",
           endpoint := "mysql://db.example.com:9999", port := some 9999,
           used_by := ["app-0"], evidence_refs := ["attachments/a1"] }] := by
  refine ⟨?_, rfl, by decide⟩
  rw [analyze_min0_clusters bundleExtDep "app" [] 0 (by simp), List.map_map]
  show (detect_dependencies bundleExtDep
      (cluster_applications bundleExtDep [] "app")).1.map
    (fun c => c.external_deps) = [["ext-0"]]
  decide

/-- The first standalone process of `bundleTwoProcs`. -/
def procNginx : ProcessInfo :=
  { pid := 100, ppid := 1, user := "root", command := "nginx",
    args := [], full_cmdline := "nginx", working_directory := none,
    evidence_ref := none }

/-- The second standalone process of `bundleTwoProcs`. -/
def procRedis : ProcessInfo :=
  { pid := 200, ppid := 1, user := "root", command := "redis-server",
    args := [], full_cmdline := "redis-server",
    working_directory := none, evidence_ref := none }

/-- A manifest with two standalone business processes and no services:
pass 2 of clustering assigns cluster ids in the iteration order of the
scores `HashMap`. -/
def bundleTwoProcs : Bundle :=
  { manifest :=
      { schema_version := "1.0.0", collection_id := "cid-2",
        system := { hostname := "h", os_type := "linux", os_version := none,
                    kernel_version := none, architecture := none },
        processes := [procNginx, procRedis],
        services := [], ports := [], config_files := [],
        environment_files := [] },
    audit := [], evidence := [], checksums := [] }

/-- **C2.** The claim asserts two runs of analysis on the same bundle and
parameters produce equal PackPlans (modulo `generated_at`).  Pass 2 of
`cluster_applications` iterates the scores `HashMap` directly
(`clustering.rs` line 188), and Rust's `HashMap` iteration order is
randomized per process; with two standalone business processes, the two
iteration orders — both permutations of the same score map — swap which
process becomes `app-0` and which `app-1`, giving different plans even at
the same `generated_at`. -/
theorem C2_hashmap_iteration_nondeterminism :
    List.Perm ((scoreProcesses bundleTwoProcs.manifest).reverse)
      (scoreProcesses bundleTwoProcs.manifest)
    ∧ analyze_bundle bundleTwoProcs "app" 0
        (scoreProcesses bundleTwoProcs.manifest) 0
      ≠ analyze_bundle bundleTwoProcs "app" 0
        ((scoreProcesses bundleTwoProcs.manifest).reverse) 0 := by
  refine ⟨List.reverse_perm _, ?_⟩
  have hconf1 := scoreProcesses_nonneg bundleTwoProcs.manifest
  have hconf2 : ∀ e ∈ (scoreProcesses bundleTwoProcs.manifest).reverse,
      0 ≤ e.2.score :=
    fun e he => scoreProcesses_nonneg _ e (List.mem_reverse.mp he)
  intro heq
  have hproj := congrArg
    (fun p => p.clusters.map (fun c => (c.id, c.name))) heq
  simp only at hproj
  rw [analyze_min0_clusters bundleTwoProcs "app"
      (scoreProcesses bundleTwoProcs.manifest) 0 hconf1,
    analyze_min0_clusters bundleTwoProcs "app"
      ((scoreProcesses bundleTwoProcs.manifest).reverse) 0 hconf2,
    List.map_map, List.map_map] at hproj
  have hrw1 : scoreProcess bundleTwoProcs.manifest procNginx
      = { pid := 100, name := "nginx",
          score := scoreVal bundleTwoProcs.manifest procNginx,
          is_business_process := true } := by
    unfold scoreProcess
    simp only [ProcessScore.mk.injEq,
      show scoreVal bundleTwoProcs.manifest procNginx = 8/10 from rfl]
    norm_num
    exact ⟨rfl, rfl⟩
  have hrw2 : scoreProcess bundleTwoProcs.manifest procRedis
      = { pid := 200, name := "redis-server",
          score := scoreVal bundleTwoProcs.manifest procRedis,
          is_business_process := true } := by
    unfold scoreProcess
    simp only [ProcessScore.mk.injEq,
      show scoreVal bundleTwoProcs.manifest procRedis = 8/10 from rfl]
    norm_num
    exact ⟨rfl, rfl⟩
  rw [show scoreProcesses bundleTwoProcs.manifest
        = [(100, scoreProcess bundleTwoProcs.manifest procNginx),
           (200, scoreProcess bundleTwoProcs.manifest procRedis)] from rfl,
    hrw1, hrw2] at hproj
  have h1 : ((detect_dependencies bundleTwoProcs
      (cluster_applications bundleTwoProcs
        [(100, { pid := 100, name := "nginx",
                 score := scoreVal bundleTwoProcs.manifest procNginx,
                 is_business_process := true }),
         (200, { pid := 200, name := "redis-server",
                 score := scoreVal bundleTwoProcs.manifest procRedis,
                 is_business_process := true })] "app")).1.map
      ((fun c => (c.id, c.name)) ∘ calculate_cluster_confidence))
      = [("app-0", "nginx"), ("app-1", "redis-server")] := rfl
  have h2 : ((detect_dependencies bundleTwoProcs
      (cluster_applications bundleTwoProcs
        ([(100, { pid := 100, name := "nginx",
                  score := scoreVal bundleTwoProcs.manifest procNginx,
                  is_business_process := true }),
          (200, { pid := 200, name := "redis-server",
                  score := scoreVal bundleTwoProcs.manifest procRedis,
                  is_business_process := true })].reverse) "app")).1.map
      ((fun c => (c.id, c.name)) ∘ calculate_cluster_confidence))
      = [("app-0", "redis-server"), ("app-1", "nginx")] := rfl
  rw [h1, h2] at hproj
  exact absurd hproj (by decide)

/-- Two services listening on ports 1000 and 2000 whose config files each
reference the other service's port: dependency inference produces mutually
dependent clusters, a cycle. -/
def bundleCycle : Bundle :=
  { manifest :=
      { schema_version := "1.0.0", collection_id := "cid-4",
        system := { hostname := "h", os_type := "linux", os_version := none,
                    kernel_version := none, architecture := none },
        processes := [],
        services :=
          [{ name := "appa.service", description := none, state := "active",
             sub_state := none, exec_start := some "/srv/a/run",
             working_directory := some "/srv/a", user := none, group := none,
             environment := [], environment_files := [],
             unit_file_path := none, main_pid := some 1,
             evidence_ref := some "evidence/sa.txt" },
           { name := "appb.service", description := none, state := "active",
             sub_state := none, exec_start := some "/srv/b/run",
             working_directory := some "/srv/b", user := none, group := none,
             environment := [], environment_files := [],
             unit_file_path := none, main_pid := some 2,
             evidence_ref := some "evidence/sb.txt" }],
        ports :=
          [{ protocol := "tcp", local_address := "0.0.0.0", local_port := 1000,
             state := "LISTEN", pid := some 1, process_name := none,
             evidence_ref := none },
           { protocol := "tcp", local_address := "0.0.0.0", local_port := 2000,
             state := "LISTEN", pid := some 2, process_name := none,
             evidence_ref := none }],
        config_files :=
          [{ path := "/srv/a/a.conf", size_bytes := 11, content_hash := none,
             attachment_ref := some "attachments/ca",
             discovery_method := "working_directory" },
           { path := "/srv/b/b.conf", size_bytes := 11, content_hash := none,
             attachment_ref := some "attachments/cb",
             discovery_method := "working_directory" }],
        environment_files := [] },
    audit := [],
    evidence :=
      [("attachments/ca",
        { id := "ca", evidence_type := .config_file, collected_at := 0,
          source_command := none, size_bytes := 11, content_hash := "hca",
          redacted := true, bundle_path := "attachments/ca",
          original_path := none, content := some "host=x:2000" }),
       ("attachments/cb",
        { id := "cb", evidence_type := .config_file, collected_at := 0,
          source_command := none, size_bytes := 11, content_hash := "hcb",
          redacted := true, bundle_path := "attachments/cb",
          original_path := none, content := some "host=y:1000" })],
    checksums := [] }

/-- **C4 counterexample.** On `bundleCycle` analysis produces mutually
dependent clusters; both DAG edges are kept and `toposort` fails (so the
code logs its circular-dependency warning), but the produced plan's
`warnings` list is empty — `analyze_bundle` hard-codes `warnings: vec![]`
and the warning goes only to the log, contradicting the claim that it
appears in the plan's warnings. -/
theorem C4_counterexample :
    ((analyze_bundle bundleCycle "app" 0 [] 0).clusters.map
        (fun c => (c.id, c.depends_on))
      = [("app-0", ["app-1"]), ("app-1", ["app-0"])])
    ∧ startup_dag_cycle_warning
        ((detect_dependencies bundleCycle
          (cluster_applications bundleCycle [] "app")).1) = true
    ∧ ((analyze_bundle bundleCycle "app" 0 [] 0).startup_dag.map
        (fun e => (e.fromId, e.toId))
      = [("app-1", "app-0"), ("app-0", "app-1")])
    ∧ (analyze_bundle bundleCycle "app" 0 [] 0).warnings = [] := by
  refine ⟨?_, by decide, by decide, rfl⟩
  rw [analyze_min0_clusters bundleCycle "app" [] 0 (by simp), List.map_map]
  show (detect_dependencies bundleCycle
      (cluster_applications bundleCycle [] "app")).1.map
    (fun c => (c.id, c.depends_on))
    = [("app-0", ["app-1"]), ("app-1", ["app-0"])]
  decide

theorem foldl_append_subset {α β : Type} (f : β → List α) (l : List β) :
    ∀ (init : List α) (x : α), x ∈ init →
      x ∈ l.foldl (fun es c => es ++ f c) init := by
  induction l with
  | nil => intro init x hx; simpa using hx
  | cons hd tl ih =>
    intro init x hx
    simp only [List.foldl_cons]
    exact ih _ x (List.mem_append_left _ hx)

theorem foldl_append_mem {α β : Type} (f : β → List α) (l : List β)
    (b : β) (hb : b ∈ l) (x : α) (hx : x ∈ f b) :
    ∀ (init : List α), x ∈ l.foldl (fun es c => es ++ f c) init := by
  induction l with
  | nil => cases hb
  | cons hd tl ih =>
    intro init
    simp only [List.foldl_cons]
    rcases List.mem_cons.mp hb with rfl | hb'
    · exact foldl_append_subset f tl _ x (List.mem_append_right _ hx)
    · exact ih hb' _

/-- A minimal artificial two-cluster cycle (`a` and `b` depend on each
other), for the C4 witness. -/
def cycClusterA : AppCluster :=
  { id := "a", name := "a", description := none, app_type := "unknown",
    processes := [], services := [], ports := [], env_vars := [],
    config_files := [], log_paths := [], depends_on := ["b"],
    external_deps := [], readiness := none, confidence := 0,
    evidence_refs := [], decisions := [] }

def cycClusterB : AppCluster :=
  { id := "b", name := "b", description := none, app_type := "unknown",
    processes := [], services := [], ports := [], env_vars := [],
    config_files := [], log_paths := [], depends_on := ["a"],
    external_deps := [], readiness := none, confidence := 0,
    evidence_refs := [], decisions := [] }

/-- **C4 (amended).** For clusters whose `depends_on` relation contains a
cycle, analysis still returns a PackPlan and no DAG edge is removed: every
`depends_on` entry naming an existing cluster id contributes its edge to
`build_startup_dag`, cycles included — the topological sort's failure only
logs a warning.  However, the warning is *not* placed into the plan:
`analyze_bundle` always returns an empty `warnings` list, and its
`startup_dag` is exactly `build_startup_dag` of the analysed clusters. -/
theorem C4_cycle_edges_kept_warning_only_logged :
    (∀ (clusters : List AppCluster) (c : AppCluster) (dep : String),
      c ∈ clusters → dep ∈ c.depends_on → (∃ k ∈ clusters, k.id = dep) →
      (⟨dep, c.id, "Cluster " ++ c.id ++ " depends on " ++ dep⟩ : DagEdge)
        ∈ build_startup_dag clusters)
    ∧ (∀ (bundle : Bundle) (pfx : String) (minc : ℚ)
        (scoresIter : List (Nat × ProcessScore)) (now : Nat),
        (analyze_bundle bundle pfx minc scoresIter now).startup_dag
          = build_startup_dag
              (detect_dependencies bundle
                (cluster_applications bundle scoresIter pfx)).1
        ∧ (analyze_bundle bundle pfx minc scoresIter now).warnings = []) := by
  constructor
  · intro clusters c dep hc hdep hex
    unfold build_startup_dag
    apply foldl_append_mem _ clusters c hc
    apply List.mem_filterMap.mpr
    refine ⟨dep, hdep, ?_⟩
    rw [if_pos]
    apply List.any_eq_true.mpr
    rcases hex with ⟨k, hk, hid⟩
    exact ⟨k, hk, by simp [hid]⟩
  · intro bundle pfx minc scoresIter now
    exact ⟨rfl, rfl⟩

/-- Witness for C4 (amended): on the concrete cyclic bundle, both edges of
the two-cluster cycle are present in the DAG and the plan's warnings are
empty. -/
theorem C4_cycle_edges_kept_warning_only_logged_witness :
    ((⟨"b", "a", "Cluster a depends on b"⟩ : DagEdge)
      ∈ build_startup_dag [cycClusterA, cycClusterB])
    ∧ (analyze_bundle bundleCycle "app" 0 [] 0).warnings = [] :=
  ⟨C4_cycle_edges_kept_warning_only_logged.1 [cycClusterA, cycClusterB]
      cycClusterA "b" (List.mem_cons_self _ _)
      (List.mem_singleton.mpr rfl)
      ⟨cycClusterB, List.mem_cons_of_mem _ (List.mem_cons_self _ _), rfl⟩,
   (C4_cycle_edges_kept_warning_only_logged.2 bundleCycle "app" 0 [] 0).2⟩

/-! ### C10: Linux service collection never populates `environment` -/

/-- Splitting a character list at newline characters (auxiliary for
Rust `str::lines`). -/
def splitNlAux : List Char → List Char → List (List Char)
  | [], acc => [acc.reverse]
  | c :: rest, acc =>
    if c == '\n' then acc.reverse :: splitNlAux rest []
    else splitNlAux rest (c :: acc)

/-- Rust `str::lines`: split on `\n`, drop one trailing `\r` per line,
and a trailing newline produces no final empty line. -/
def rustLines (s : String) : List String :=
  let parts := splitNlAux s.data []
  let parts := if parts.getLast? = some [] then parts.dropLast else parts
  parts.map (fun l => ⟨if l.getLast? = some '\r' then l.dropLast else l⟩)

/-- Rust `char::is_whitespace` (the Unicode `White_Space` property). -/
def rustIsWhitespace (c : Char) : Bool :=
  (0x9 ≤ c.toNat && c.toNat ≤ 0xD) || c.toNat == 0x20 || c.toNat == 0x85
    || c.toNat == 0xA0 || c.toNat == 0x1680
    || (0x2000 ≤ c.toNat && c.toNat ≤ 0x200A) || c.toNat == 0x2028
    || c.toNat == 0x2029 || c.toNat == 0x202F || c.toNat == 0x205F
    || c.toNat == 0x3000

/-- Rust `str::trim`. -/
def rustTrim (s : String) : String :=
  ⟨((s.data.dropWhile rustIsWhitespace).reverse.dropWhile
      rustIsWhitespace).reverse⟩

/-- Rust `str::trim_start_matches`: strips every leading repetition of the
pattern. -/
def trimStartMatchesAux (pat : List Char) : Nat → List Char → List Char
  | 0, l => l
  | fuel + 1, l =>
    if !pat.isEmpty && listIsPrefixOf pat l then
      trimStartMatchesAux pat fuel (l.drop pat.length)
    else l

def trimStartMatches (s pat : String) : String :=
  ⟨trimStartMatchesAux pat.data s.data.length s.data⟩

/-- Rust `str::trim_matches` with a `char` pattern: strips the character
repeatedly from both ends. -/
def trimMatchesChar (s : String) (c : Char) : String :=
  ⟨((s.data.dropWhile (· == c)).reverse.dropWhile (· == c)).reverse⟩

/-- `str::splitn(2, sep)` when it yields two parts: the text before the
first separator and everything after it; `none` when the separator is
absent (the caller skips such lines). -/
def splitFirst (sep : Char) : List Char → Option (List Char × List Char)
  | [] => none
  | c :: rest =>
    if c == sep then some ([], rest)
    else (splitFirst sep rest).map (fun p => (c :: p.1, p.2))

/-- Rust `str::parse::<u32>`: optional `+`, then ASCII digits, value at
most 4294967295. -/
def parseU32 (l : List Char) : Option Nat :=
  let l' := match l with
    | '+' :: rest => rest
    | _ => l
  if l'.isEmpty then none
  else if l'.all isAsciiDigit then
    let v := l'.foldl (fun a c => a * 10 + (c.toNat - 48)) 0
    if v ≤ 4294967295 then some v else none
  else none

/-- The all-empty `ServiceInfo` that `parse_linux_service_details` starts
from (`parsers.rs` lines 186–208). -/
def emptyServiceInfo : ServiceInfo :=
  { name := "", description := none, state := "", sub_state := none,
    exec_start := none, working_directory := none, user := none,
    group := none, environment := [], environment_files := [],
    unit_file_path := none, main_pid := none, evidence_ref := none }

/-- One `KEY=VALUE` line of `systemctl show` output applied to the service
under construction (`parsers.rs` lines 210–235).  There is no arm for any
environment key: `service.environment` is never assigned. -/
def applyShowLine (sv : ServiceInfo) (line : String) : ServiceInfo :=
  match splitFirst '=' line.data with
  | none => sv
  | some p =>
    let key : String := ⟨p.1⟩
    let value : String := ⟨p.2⟩
    match key with
    | "Id" => { sv with name := value }
    | "Description" => { sv with description := some value }
    | "ActiveState" => { sv with state := value }
    | "SubState" => { sv with sub_state := some value }
    | "ExecStart" => { sv with exec_start := some value }
    | "WorkingDirectory" =>
      if value != "" then { sv with working_directory := some value } else sv
    | "User" => { sv with user := some value }
    | "Group" => { sv with group := some value }
    | "MainPID" => { sv with main_pid := parseU32 value.data }
    | "FragmentPath" => { sv with unit_file_path := some value }
    | _ => sv

/-- `parse_linux_service_details` (`parsers.rs` lines 185–238). -/
def parse_linux_service_details (output : String) : ServiceInfo :=
  (rustLines output).foldl applyShowLine emptyServiceInfo

/-- `UnitFileInfo` (`parsers.rs` lines 266–272); the `environment`
`HashMap` is an association list in insertion order. -/
structure UnitFileInfo where
  exec_start : Option String
  working_directory : Option String
  environment_files : List String
  environment : List (String × String)
  deriving Repr, DecidableEq

/-- `HashMap::insert`: overwrite an existing key in place, else append. -/
def insertAssoc (m : List (String × String)) (k v : String) :
    List (String × String) :=
  if m.any (fun p => p.1 == k) then
    m.map (fun p => if p.1 == k then (k, v) else p)
  else m ++ [(k, v)]

/-- One trimmed line of a unit file applied to the `UnitFileInfo` under
construction (`parsers.rs` lines 283–301).  `Environment=KEY=VALUE`
entries ARE parsed, into `info.environment`. -/
def applyUnitLine (info : UnitFileInfo) (raw : String) : UnitFileInfo :=
  let line := rustTrim raw
  if strStartsWith line "ExecStart=" then
    { info with exec_start := some (trimStartMatches line "ExecStart=") }
  else if strStartsWith line "WorkingDirectory=" then
    { info with
      working_directory := some (trimStartMatches line "WorkingDirectory=") }
  else if strStartsWith line "EnvironmentFile=" then
    { info with
      environment_files := info.environment_files
          ++ [trimStartMatches (trimStartMatches line "EnvironmentFile=") "-"] }
  else if strStartsWith line "Environment=" then
    match splitFirst '=' (trimStartMatches line "Environment=").data with
    | some kv =>
      { info with
        environment :=
            insertAssoc info.environment ⟨kv.1⟩ (trimMatchesChar ⟨kv.2⟩ '"') }
    | none => info
  else info

/-- `parse_systemd_unit` (`parsers.rs` lines 274–304). -/
def parse_systemd_unit (content : String) : UnitFileInfo :=
  (rustLines content).foldl applyUnitLine
    { exec_start := none, working_directory := none,
      environment_files := [], environment := [] }

/-- The collector's merge of unit-file data into the service parsed from
`systemctl show` (`collector.rs` lines 343–352): only `exec_start`,
`working_directory` and `environment_files` are taken;
`unit_info.environment` is dropped. -/
def mergeUnitInfo (sv : ServiceInfo) (u : UnitFileInfo) : ServiceInfo :=
  { sv with
    exec_start := match u.exec_start with
      | some e => some e
      | none => sv.exec_start,
    working_directory := match u.working_directory with
      | some w => some w
      | none => sv.working_directory,
    environment_files := sv.environment_files ++ u.environment_files }

/-- One Linux service as `collect_services` builds it (`collector.rs`
lines 317–357): parse the `systemctl show` output, attach the evidence
reference, and, when the `systemctl cat` output was obtained, merge the
parsed unit file into it. -/
def collectLinuxService (showOutput : String) (catOutput : Option String)
    (evRef : Option String) : ServiceInfo :=
  let sv := { parse_linux_service_details showOutput with
              evidence_ref := evRef }
  match catOutput with
  | some cat => mergeUnitInfo sv (parse_systemd_unit cat)
  | none => sv

/-- **C10.** Every `ServiceInfo` produced by a Linux collection has an
empty `environment` map: `parse_linux_service_details` has no arm that
assigns it, and the collector's merge of the parsed unit file takes only
`exec_start`, `working_directory` and `environment_files`, discarding the
`Environment=` entries — which `parse_systemd_unit` does parse, as the
last conjunct shows on `"Environment=FOO=bar"`.  Consequently the cluster
env-var specs derived from `service.environment` are always absent and a
service cluster's `env_vars` come only from `EnvironmentFile` variable
names. -/
theorem C10_linux_service_environment_empty :
    (∀ (showOutput : String) (catOutput : Option String)
       (evRef : Option String),
      (collectLinuxService showOutput catOutput evRef).environment = [])
    ∧ (∀ (showOutput : String) (catOutput : Option String)
         (evRef : Option String),
        serviceEnvVarSpecs (collectLinuxService showOutput catOutput evRef)
          = [])
    ∧ (∀ (bundle : Bundle) (pfx : String) (cid : Nat)
         (showOutput : String) (catOutput : Option String)
         (evRef : Option String),
        (buildServiceCluster bundle pfx cid
            (collectLinuxService showOutput catOutput evRef)).env_vars
          = (envFileSpecs bundle
              (collectLinuxService showOutput catOutput evRef)).2)
    ∧ (parse_systemd_unit "Environment=FOO=bar").environment
        = [("FOO", "bar")] := by
  have hparse : ∀ o : String,
      (parse_linux_service_details o).environment = [] := by
    intro o
    unfold parse_linux_service_details
    apply foldl_preserve (fun (sv : ServiceInfo) => sv.environment = [])
    · intro a b ha
      unfold applyShowLine
      split
      · exact ha
      · dsimp only
        split <;> first | exact ha | (split <;> exact ha)
    · rfl
  have hcoll : ∀ (sO : String) (cO : Option String) (eR : Option String),
      (collectLinuxService sO cO eR).environment = [] := by
    intro sO cO eR
    unfold collectLinuxService
    cases cO with
    | none => exact hparse sO
    | some cat => exact hparse sO
  have hspecs : ∀ (sO : String) (cO : Option String) (eR : Option String),
      serviceEnvVarSpecs (collectLinuxService sO cO eR) = [] := by
    intro sO cO eR
    unfold serviceEnvVarSpecs
    rw [hcoll sO cO eR]
    exact List.map_nil
  refine ⟨hcoll, hspecs, ?_, by decide⟩
  intro bundle pfx cid sO cO eR
  show serviceEnvVarSpecs (collectLinuxService sO cO eR)
      ++ (envFileSpecs bundle (collectLinuxService sO cO eR)).2
    = (envFileSpecs bundle (collectLinuxService sO cO eR)).2
  rw [hspecs sO cO eR, List.nil_append]

/-! ### C9: bundle write/read round trip (`probe-cli/src/bundle.rs`) -/

/-- Rust `Vec::join("\n")`. -/
def joinNl : List String → String
  | [] => ""
  | x :: xs => xs.foldl (fun a b => a ++ "\n" ++ b) x

/-- `write_bundle` (`bundle.rs` lines 16–49) as the archive-entry sequence
it emits: `manifest.json`, `audit.jsonl` (one serialised entry per line),
one entry per evidence item that carries content (at the item's map key),
then `checksums.json`.  JSON serialisation (serde_json) is abstracted by
the injected `renderM`/`renderA`/`renderC`. -/
def write_bundle (renderM : Manifest → String)
    (renderA : AuditEntry → String)
    (renderC : List (String × String) → String) (bundle : Bundle) :
    List (String × String) :=
  [("manifest.json", renderM bundle.manifest),
   ("audit.jsonl", joinNl (bundle.audit.map renderA))]
  ++ bundle.evidence.filterMap
      (fun pe => pe.2.content.map (fun c => (pe.1, c)))
  ++ [("checksums.json", renderC bundle.checksums)]

/-- The audit entries `read_bundle` accumulates from `audit.jsonl`: each
non-blank line is parsed, and lines that fail to parse are skipped
(`bundle.rs` lines 86–94). -/
def parseAuditLines (parseA : String → Option AuditEntry)
    (content : String) : List AuditEntry :=
  (rustLines content).foldl
    (fun acc line =>
      if rustTrim line != "" then
        match parseA line with
        | some e => acc ++ [e]
        | none => acc
      else acc) []

/-- The `Evidence` record `read_bundle` fabricates for an entry under
`evidence/` or `attachments/` (`bundle.rs` lines 96–110): the hash is
recomputed from the content bytes, and `now` stands for
`chrono::Utc::now()`. -/
def mkReadEvidence (hash : String → String) (now : Nat)
    (path content : String) : Evidence :=
  { id := path, evidence_type := .command_output, collected_at := now,
    source_command := none, size_bytes := utf8Len content,
    content_hash := hash content, redacted := false, bundle_path := path,
    original_path := none, content := some content }

/-- `HashMap::insert` for the evidence map: overwrite in place or
append. -/
def insertEvidence (m : List (String × Evidence)) (k : String)
    (v : Evidence) : List (String × Evidence) :=
  if m.any (fun p => p.1 == k) then
    m.map (fun p => if p.1 == k then (k, v) else p)
  else m ++ [(k, v)]

/-- The accumulator of the `read_bundle` entry loop
(`bundle.rs` lines 71–74). -/
structure ReadState where
  manifest : Option Manifest
  audit : List AuditEntry
  evidence : List (String × Evidence)
  checksums : List (String × String)
  deriving Repr, DecidableEq

/-- One step of the `read_bundle` entry loop (`bundle.rs` lines 76–112);
`none` models the `?` error propagation when `manifest.json` or
`checksums.json` fails to parse.  Entries at any other non-reserved,
non-prefixed path are silently dropped. -/
def readEntry (parseM : String → Option Manifest)
    (parseA : String → Option AuditEntry)
    (parseC : String → Option (List (String × String)))
    (hash : String → String) (now : Nat) (st : ReadState)
    (pe : String × String) : Option ReadState :=
  if pe.1 == "manifest.json" then
    match parseM pe.2 with
    | some m => some { st with manifest := some m }
    | none => none
  else if pe.1 == "audit.jsonl" then
    some { st with audit := st.audit ++ parseAuditLines parseA pe.2 }
  else if pe.1 == "checksums.json" then
    match parseC pe.2 with
    | some cs => some { st with checksums := cs }
    | none => none
  else if strStartsWith pe.1 "evidence/"
      || strStartsWith pe.1 "attachments/" then
    some { st with
           evidence := insertEvidence st.evidence pe.1
               (mkReadEvidence hash now pe.1 pe.2) }
  else some st

def readEntries (parseM : String → Option Manifest)
    (parseA : String → Option AuditEntry)
    (parseC : String → Option (List (String × String)))
    (hash : String → String) (now : Nat) :
    List (String × String) → ReadState → Option ReadState
  | [], st => some st
  | e :: rest, st =>
    match readEntry parseM parseA parseC hash now st e with
    | some st2 => readEntries parseM parseA parseC hash now rest st2
    | none => none

/-- `read_bundle` (`bundle.rs` lines 66–120): run the entry loop and
require `manifest.json` to have been seen. -/
def read_bundle (parseM : String → Option Manifest)
    (parseA : String → Option AuditEntry)
    (parseC : String → Option (List (String × String)))
    (hash : String → String) (now : Nat)
    (files : List (String × String)) : Option Bundle :=
  match readEntries parseM parseA parseC hash now files
      ⟨none, [], [], []⟩ with
  | some st =>
    match st.manifest with
    | some m => some ⟨m, st.audit, st.evidence, st.checksums⟩
    | none => none
  | none => none

/-- A serialised line as serde_json produces it: non-empty and free of
newline and carriage-return characters. -/
def lineOk (s : String) : Bool :=
  !s.data.isEmpty && s.data.all (fun c => !(c == '\n' || c == '\r'))

theorem splitNlAux_cons (c : Char) (rest acc : List Char) :
    splitNlAux (c :: rest) acc
      = if c == '\n' then acc.reverse :: splitNlAux rest []
        else splitNlAux rest (c :: acc) := rfl

theorem splitNlAux_no_nl (s : List Char) :
    ∀ acc : List Char, s.all (fun c => !(c == '\n')) = true →
      splitNlAux s acc = [acc.reverse ++ s] := by
  induction s with
  | nil => intro acc _; simp [splitNlAux]
  | cons c cs ih =>
    intro acc h
    rw [List.all_cons, Bool.and_eq_true] at h
    rw [splitNlAux_cons, if_neg (by simpa using h.1), ih (c :: acc) h.2]
    simp

theorem splitNlAux_append (s : List Char) :
    ∀ (acc rest : List Char), s.all (fun c => !(c == '\n')) = true →
      splitNlAux (s ++ '\n' :: rest) acc
        = (acc.reverse ++ s) :: splitNlAux rest [] := by
  induction s with
  | nil =>
    intro acc rest _
    show splitNlAux ('\n' :: rest) acc = _
    rw [splitNlAux_cons, if_pos (by decide)]
    simp
  | cons c cs ih =>
    intro acc rest h
    rw [List.all_cons, Bool.and_eq_true] at h
    show splitNlAux (c :: (cs ++ '\n' :: rest)) acc = _
    rw [splitNlAux_cons, if_neg (by simpa using h.1), ih (c :: acc) rest h.2]
    simp

theorem joinNl_foldl_data (l : List String) :
    ∀ a : String, (l.foldl (fun a b => a ++ "\n" ++ b) a).data
      = a.data ++ (l.map (fun b => '\n' :: b.data)).flatten := by
  induction l with
  | nil => intro a; simp
  | cons y ys ih =>
    intro a
    rw [List.foldl_cons, ih]
    simp [String.data_append]

theorem lineOk_no_nl (x : String) (h : lineOk x = true) :
    x.data.all (fun c => !(c == '\n')) = true := by
  rw [lineOk, Bool.and_eq_true] at h
  rw [List.all_eq_true] at h ⊢
  intro c hc
  have h2 := h.2 c hc
  simp at h2 ⊢
  exact h2.1

theorem splitNl_joinNl (l : List String) :
    (∀ x ∈ l, lineOk x = true) → l ≠ [] →
      splitNlAux (joinNl l).data [] = l.map String.data := by
  induction l with
  | nil => intro _ hne; exact absurd rfl hne
  | cons x xs ih =>
    intro h _
    have hx := h x (List.mem_cons_self _ _)
    have hxnl := lineOk_no_nl x hx
    cases xs with
    | nil =>
      show splitNlAux (joinNl [x]).data [] = [x.data]
      rw [show joinNl [x] = x from rfl, splitNlAux_no_nl x.data [] hxnl]
      simp
    | cons y ys =>
      have hstep : (joinNl (x :: y :: ys)).data
          = x.data ++ '\n' :: (joinNl (y :: ys)).data := by
        show ((y :: ys).foldl (fun a b => a ++ "\n" ++ b) x).data = _
        rw [joinNl_foldl_data,
          show joinNl (y :: ys) = ys.foldl (fun a b => a ++ "\n" ++ b) y
            from rfl,
          joinNl_foldl_data]
        simp
      rw [hstep, splitNlAux_append x.data [] _ hxnl,
        ih (fun z hz => h z (List.mem_cons_of_mem _ hz)) (by simp)]
      simp

theorem rustLines_joinNl (l : List String)
    (h : ∀ x ∈ l, lineOk x = true) : rustLines (joinNl l) = l := by
  cases l with
  | nil => rfl
  | cons x xs =>
    show rustLines (joinNl (x :: xs)) = x :: xs
    unfold rustLines
    rw [splitNl_joinNl (x :: xs) h (by simp)]
    dsimp only
    have hlast : ¬ (List.map String.data (x :: xs)).getLast? = some [] := by
      intro hsome
      have hmem := List.mem_of_mem_getLast? hsome
      rcases List.mem_map.mp hmem with ⟨z, hz, hdata⟩
      have := h z hz
      rw [lineOk, Bool.and_eq_true] at this
      rw [hdata] at this
      simp at this
    rw [if_neg hlast, List.map_map]
    refine (List.map_congr_left ?_).trans (List.map_id (x :: xs))
    intro z hz
    show (⟨if z.data.getLast? = some '\r' then z.data.dropLast
           else z.data⟩ : String) = z
    rw [if_neg ?hr]
    case hr =>
      intro hsome
      have hmem := List.mem_of_mem_getLast? hsome
      have := h z hz
      rw [lineOk, Bool.and_eq_true] at this
      rw [List.all_eq_true] at this
      have h2 := this.2 _ hmem
      simp at h2

theorem parseAuditLines_roundtrip (parseA : String → Option AuditEntry)
    (renderA : AuditEntry → String) (l : List AuditEntry)
    (ha : ∀ e ∈ l, parseA (renderA e) = some e)
    (hline : ∀ e ∈ l, lineOk (renderA e) = true)
    (htrim : ∀ e ∈ l, (rustTrim (renderA e) != "") = true) :
    parseAuditLines parseA (joinNl (l.map renderA)) = l := by
  unfold parseAuditLines
  rw [rustLines_joinNl (l.map renderA)
    (fun x hx => by
      rcases List.mem_map.mp hx with ⟨e, he, hdata⟩
      rw [← hdata]; exact hline e he)]
  have key : ∀ (t : List AuditEntry) (acc : List AuditEntry),
      (∀ e ∈ t, parseA (renderA e) = some e) →
      (∀ e ∈ t, (rustTrim (renderA e) != "") = true) →
      (t.map renderA).foldl
        (fun acc line =>
          if rustTrim line != "" then
            match parseA line with
            | some e => acc ++ [e]
            | none => acc
          else acc) acc = acc ++ t := by
    intro t
    induction t with
    | nil => intro acc _ _; simp
    | cons e es ihe =>
      intro acc hae hte
      rw [List.map_cons, List.foldl_cons,
        if_pos (hte e (List.mem_cons_self _ _)),
        hae e (List.mem_cons_self _ _)]
      rw [ihe (acc ++ [e]) (fun z hz => hae z (List.mem_cons_of_mem _ hz))
        (fun z hz => hte z (List.mem_cons_of_mem _ hz))]
      simp
  exact key l [] ha htrim

theorem path_not_reserved (p : String)
    (hp : (strStartsWith p "evidence/" || strStartsWith p "attachments/")
        = true) :
    (p == "manifest.json") = false ∧ (p == "audit.jsonl") = false
      ∧ (p == "checksums.json") = false := by
  refine ⟨?_, ?_, ?_⟩ <;>
    (rw [beq_eq_false_iff_ne]
     rintro rfl
     exact absurd hp (by decide))

theorem readEntries_cons (parseM : String → Option Manifest)
    (parseA : String → Option AuditEntry)
    (parseC : String → Option (List (String × String)))
    (hash : String → String) (now : Nat) (e : String × String)
    (rest : List (String × String)) (st : ReadState) :
    readEntries parseM parseA parseC hash now (e :: rest) st
      = match readEntry parseM parseA parseC hash now st e with
        | some st2 => readEntries parseM parseA parseC hash now rest st2
        | none => none := rfl

theorem readEntry_at_manifest (parseM : String → Option Manifest)
    (parseA : String → Option AuditEntry)
    (parseC : String → Option (List (String × String)))
    (hash : String → String) (now : Nat) (st : ReadState)
    (content : String) :
    readEntry parseM parseA parseC hash now st ("manifest.json", content)
      = match parseM content with
        | some m => some { st with manifest := some m }
        | none => none := by
  unfold readEntry
  dsimp only
  rw [if_pos (by decide)]

theorem readEntry_at_audit (parseM : String → Option Manifest)
    (parseA : String → Option AuditEntry)
    (parseC : String → Option (List (String × String)))
    (hash : String → String) (now : Nat) (st : ReadState)
    (content : String) :
    readEntry parseM parseA parseC hash now st ("audit.jsonl", content)
      = some { st with
               audit := st.audit ++ parseAuditLines parseA content } := by
  unfold readEntry
  dsimp only
  rw [if_neg (by decide), if_pos (by decide)]

theorem readEntry_at_checksums (parseM : String → Option Manifest)
    (parseA : String → Option AuditEntry)
    (parseC : String → Option (List (String × String)))
    (hash : String → String) (now : Nat) (st : ReadState)
    (content : String) :
    readEntry parseM parseA parseC hash now st ("checksums.json", content)
      = match parseC content with
        | some cs => some { st with checksums := cs }
        | none => none := by
  unfold readEntry
  dsimp only
  rw [if_neg (by decide), if_neg (by decide), if_pos (by decide)]

theorem readEntry_at_evidence (parseM : String → Option Manifest)
    (parseA : String → Option AuditEntry)
    (parseC : String → Option (List (String × String)))
    (hash : String → String) (now : Nat) (st : ReadState)
    (p content : String)
    (hp : (strStartsWith p "evidence/" || strStartsWith p "attachments/")
        = true) :
    readEntry parseM parseA parseC hash now st (p, content)
      = some { st with
               evidence := insertEvidence st.evidence p
                   (mkReadEvidence hash now p content) } := by
  obtain ⟨h1, h2, h3⟩ := path_not_reserved p hp
  unfold readEntry
  dsimp only
  rw [if_neg (by simp [h1]), if_neg (by simp [h2]), if_neg (by simp [h3]),
    if_pos hp]

theorem readEntries_evidence (parseM : String → Option Manifest)
    (parseA : String → Option AuditEntry)
    (parseC : String → Option (List (String × String)))
    (hash : String → String) (now : Nat)
    (tail : List (String × String)) :
    ∀ (l : List (String × Evidence)) (st : ReadState),
      (∀ pe ∈ l, (strStartsWith pe.1 "evidence/"
          || strStartsWith pe.1 "attachments/") = true) →
      (∀ pe ∈ l, pe.2.content.isSome = true) →
      readEntries parseM parseA parseC hash now
        (l.filterMap (fun pe => pe.2.content.map (fun c => (pe.1, c)))
          ++ tail) st
      = readEntries parseM parseA parseC hash now tail
          { st with
            evidence := l.foldl
                (fun acc pe => insertEvidence acc pe.1
                    (mkReadEvidence hash now pe.1 (pe.2.content.getD "")))
                st.evidence } := by
  intro l
  induction l with
  | nil => intro st _ _; simp
  | cons pe l ihl =>
    intro st hp hc
    have hcc : pe.2.content = some (pe.2.content.getD "") := by
      have := hc pe (List.mem_cons_self _ _)
      cases h : pe.2.content with
      | none => rw [h] at this; simp at this
      | some c => rfl
    rw [List.filterMap_cons, hcc]
    simp only [Option.map_some']
    rw [List.cons_append, readEntries_cons,
      readEntry_at_evidence _ _ _ _ _ _ _ _ (hp pe (List.mem_cons_self _ _))]
    show readEntries parseM parseA parseC hash now _ _ = _
    rw [ihl _ (fun q hq => hp q (List.mem_cons_of_mem _ hq))
      (fun q hq => hc q (List.mem_cons_of_mem _ hq))]
    rw [List.foldl_cons]

theorem foldl_insertEvidence (f : String × Evidence → Evidence) :
    ∀ (l : List (String × Evidence)) (acc : List (String × Evidence)),
      (∀ pe ∈ l, ∀ q ∈ acc, (q.1 == pe.1) = false) →
      (l.map Prod.fst).Nodup →
      l.foldl (fun acc pe => insertEvidence acc pe.1 (f pe)) acc
        = acc ++ l.map (fun pe => (pe.1, f pe)) := by
  intro l
  induction l with
  | nil => intro acc _ _; simp
  | cons pe l ihl =>
    intro acc hdisj hnd
    rw [List.map_cons, List.nodup_cons] at hnd
    rw [List.foldl_cons]
    have hins : insertEvidence acc pe.1 (f pe) = acc ++ [(pe.1, f pe)] := by
      unfold insertEvidence
      rw [if_neg ?hneg]
      case hneg =>
        rw [List.any_eq_true]
        rintro ⟨q, hq, hbeq⟩
        rw [hdisj pe (List.mem_cons_self _ _) q hq] at hbeq
        cases hbeq
    rw [hins, ihl (acc ++ [(pe.1, f pe)]) ?hdisj2 hnd.2]
    · simp
    case hdisj2 =>
      intro qe hqe q hq
      rcases List.mem_append.mp hq with hq | hq
      · exact hdisj qe (List.mem_cons_of_mem _ hqe) q hq
      · rcases List.mem_singleton.mp hq with rfl
        rw [beq_eq_false_iff_ne]
        intro heq
        exact hnd.1 (heq ▸ List.mem_map_of_mem Prod.fst hqe)

theorem lookupAssoc_map_mem (f : String × Evidence → Evidence) :
    ∀ (l : List (String × Evidence)) (pe : String × Evidence),
      pe ∈ l → (l.map Prod.fst).Nodup →
      lookupAssoc (l.map (fun q => (q.1, f q))) pe.1 = some (f pe) := by
  intro l
  induction l with
  | nil => intro pe h; cases h
  | cons q l ihl =>
    intro pe hpe hnd
    rw [List.map_cons, List.nodup_cons] at hnd
    rw [List.map_cons]
    unfold lookupAssoc
    rcases List.mem_cons.mp hpe with rfl | hpe2
    · rw [List.find?_cons_of_pos _ (by simp)]
      rfl
    · rw [List.find?_cons_of_neg _ ?hne]
      · exact ihl pe hpe2 hnd.2
      case hne =>
        simp only [beq_iff_eq]
        intro heq
        exact hnd.1 (heq ▸ List.mem_map_of_mem Prod.fst hpe2)

theorem readEntries_nil (parseM : String → Option Manifest)
    (parseA : String → Option AuditEntry)
    (parseC : String → Option (List (String × String)))
    (hash : String → String) (now : Nat) (st : ReadState) :
    readEntries parseM parseA parseC hash now [] st = some st := rfl

/-- **C9 (amended).** The write-then-read round trip preserves the
manifest, the audit log and every evidence item's recomputed hash
*provided* every evidence map key lies under `evidence/` or
`attachments/`, every item carries content whose stored hash matches the
hash function, and the keys are distinct; `read_bundle` reconstructs
evidence only from those two prefixes and recomputes `content_hash` from
the bytes, so items violating the side conditions are lost or change
hash (see the counterexample). The serde codecs are abstracted and
assumed to round-trip on the bundle's own values. -/
theorem C9_write_read_roundtrip
    (renderM : Manifest → String) (parseM : String → Option Manifest)
    (renderA : AuditEntry → String) (parseA : String → Option AuditEntry)
    (renderC : List (String × String) → String)
    (parseC : String → Option (List (String × String)))
    (hash : String → String) (now : Nat) (bundle : Bundle)
    (hm : parseM (renderM bundle.manifest) = some bundle.manifest)
    (hcs : parseC (renderC bundle.checksums) = some bundle.checksums)
    (ha : ∀ e ∈ bundle.audit, parseA (renderA e) = some e)
    (hline : ∀ e ∈ bundle.audit, lineOk (renderA e) = true)
    (htrim : ∀ e ∈ bundle.audit, (rustTrim (renderA e) != "") = true)
    (hpref : ∀ pe ∈ bundle.evidence,
      (strStartsWith pe.1 "evidence/"
        || strStartsWith pe.1 "attachments/") = true)
    (hcont : ∀ pe ∈ bundle.evidence, pe.2.content.isSome = true
      ∧ pe.2.content_hash = hash (pe.2.content.getD ""))
    (hnodup : (bundle.evidence.map Prod.fst).Nodup) :
    ∃ b', read_bundle parseM parseA parseC hash now
        (write_bundle renderM renderA renderC bundle) = some b'
      ∧ b'.manifest = bundle.manifest
      ∧ b'.audit = bundle.audit
      ∧ b'.checksums = bundle.checksums
      ∧ ∀ pe ∈ bundle.evidence,
          ∃ ev, lookupAssoc b'.evidence pe.1 = some ev
            ∧ ev.content_hash = pe.2.content_hash
            ∧ ev.content = pe.2.content
            ∧ ev.bundle_path = pe.1 := by
  have hread : read_bundle parseM parseA parseC hash now
      (write_bundle renderM renderA renderC bundle)
    = some ⟨bundle.manifest, bundle.audit,
        bundle.evidence.map (fun pe => (pe.1,
          mkReadEvidence hash now pe.1 (pe.2.content.getD ""))),
        bundle.checksums⟩ := by
    unfold write_bundle read_bundle
    rw [show ([("manifest.json", renderM bundle.manifest),
          ("audit.jsonl", joinNl (bundle.audit.map renderA))]
          ++ bundle.evidence.filterMap
              (fun pe => pe.2.content.map (fun c => (pe.1, c)))
          ++ [("checksums.json", renderC bundle.checksums)])
        = ("manifest.json", renderM bundle.manifest) ::
          ("audit.jsonl", joinNl (bundle.audit.map renderA)) ::
          (bundle.evidence.filterMap
              (fun pe => pe.2.content.map (fun c => (pe.1, c)))
            ++ [("checksums.json", renderC bundle.checksums)]) from by simp]
    rw [readEntries_cons, readEntry_at_manifest, hm]
    dsimp only
    rw [readEntries_cons, readEntry_at_audit]
    dsimp only
    rw [parseAuditLines_roundtrip parseA renderA bundle.audit ha hline htrim,
      List.nil_append]
    rw [readEntries_evidence parseM parseA parseC hash now _
      bundle.evidence _ hpref (fun pe hpe => (hcont pe hpe).1)]
    rw [readEntries_cons, readEntry_at_checksums, hcs]
    dsimp only
    rw [readEntries_nil]
    dsimp only
    rw [foldl_insertEvidence _ bundle.evidence []
      (by intro pe _ q hq; exact absurd hq (List.not_mem_nil q)) hnodup,
      List.nil_append]
  refine ⟨_, hread, rfl, rfl, rfl, ?_⟩
  intro pe hpe
  obtain ⟨hc1, hc2⟩ := hcont pe hpe
  refine ⟨mkReadEvidence hash now pe.1 (pe.2.content.getD ""),
    lookupAssoc_map_mem _ bundle.evidence pe hpe hnodup, hc2.symm, ?_, rfl⟩
  show some (pe.2.content.getD "") = pe.2.content
  cases h : pe.2.content with
  | none => rw [h] at hc1; simp at hc1
  | some c => rfl

/-- The minimal manifest of the C9 fixtures. -/
def manifestC9 : Manifest :=
  { schema_version := "1.0.0", collection_id := "c9",
    system := { hostname := "h", os_type := "linux", os_version := none,
                kernel_version := none, architecture := none },
    processes := [], services := [], ports := [], config_files := [],
    environment_files := [] }

/-- An evidence item stored at a key outside `evidence/`/`attachments/`. -/
def evNotes : Evidence :=
  { id := "notes.txt", evidence_type := .file_content, collected_at := 5,
    source_command := none, size_bytes := 1, content_hash := "#x",
    redacted := false, bundle_path := "notes.txt", original_path := none,
    content := some "x" }

/-- An evidence item whose stored hash disagrees with its content's
hash. -/
def evWrongHash : Evidence :=
  { id := "evidence/e1", evidence_type := .command_output,
    collected_at := 5, source_command := none, size_bytes := 1,
    content_hash := "deadbeef", redacted := false,
    bundle_path := "evidence/e1", original_path := none,
    content := some "y" }

def bundleC9 : Bundle :=
  { manifest := manifestC9, audit := [],
    evidence := [("notes.txt", evNotes), ("evidence/e1", evWrongHash)],
    checksums := [] }

/-- Concrete stand-ins for the serde codecs, adequate for the fixture
values they are applied to. -/
def renderManifestC9 : Manifest → String := fun _ => "M"

def parseManifestC9 : String → Option Manifest :=
  fun s => if s == "M" then some manifestC9 else none

def renderAuditC9 : AuditEntry → String := fun _ => "A"

def parseAuditC9 : String → Option AuditEntry := fun _ => none

def renderChecksC9 : List (String × String) → String := fun _ => "C"

def parseChecksC9 : String → Option (List (String × String)) :=
  fun s => if s == "C" then some [] else none

/-- A concrete stand-in for SHA-256: injective on the fixture contents. -/
def hashC9 : String → String := fun s => "#" ++ s

/-- **C9 counterexample.** Writing and re-reading `bundleC9` does not
restore its evidence: the item stored at `notes.txt` (a key outside
`evidence/` and `attachments/`) is written into the archive but dropped
by `read_bundle`, and the item at `evidence/e1`, whose stored
`content_hash` is `"deadbeef"`, comes back with the recomputed hash
`"#y"` — so the round trip preserves neither the evidence set nor every
item's `content_hash`, refuting the unconditional claim. -/
theorem C9_counterexample :
    ((read_bundle parseManifestC9 parseAuditC9 parseChecksC9 hashC9 7
        (write_bundle renderManifestC9 renderAuditC9 renderChecksC9
          bundleC9)).map
      (fun b => (b.manifest, b.audit, lookupAssoc b.evidence "notes.txt",
        (lookupAssoc b.evidence "evidence/e1").map
          (fun ev => ev.content_hash)))
      = some (manifestC9, [], none, some "#y"))
    ∧ lookupAssoc bundleC9.evidence "notes.txt" = some evNotes
    ∧ evNotes.content = some "x"
    ∧ evWrongHash.content_hash = "deadbeef"
    ∧ ¬ "deadbeef" = "#y" := by decide

/-- The audit entry of the C9 witness bundle. -/
def auditC9 : AuditEntry :=
  { seq := 1, started_at := 0, completed_at := 1, duration_ms := 1,
    command := "uname", exit_code := some 0, success := true,
    stdout_bytes := 1, stderr_bytes := 0, evidence_ref := "evidence/e1",
    error := none, category := "system" }

def renderAuditW : AuditEntry → String := fun _ => "A"

def parseAuditW : String → Option AuditEntry :=
  fun s => if s == "A" then some auditC9 else none

def renderChecksW : List (String × String) → String := fun _ => "C"

def parseChecksW : String → Option (List (String × String)) :=
  fun s => if s == "C" then some [("evidence/e1", "#y")] else none

/-- A well-formed evidence item: prefixed key, content present, stored
hash equal to the hash of the content. -/
def evGoodC9 : Evidence :=
  { id := "evidence/e1", evidence_type := .command_output,
    collected_at := 3, source_command := none, size_bytes := 1,
    content_hash := "#y", redacted := false,
    bundle_path := "evidence/e1", original_path := none,
    content := some "y" }

def bundleC9W : Bundle :=
  { manifest := manifestC9, audit := [auditC9],
    evidence := [("evidence/e1", evGoodC9)],
    checksums := [("evidence/e1", "#y")] }

/-- Witness for C9 (amended): the side conditions hold on `bundleC9W`,
and the round trip preserves manifest, audit, checksums and the evidence
item. -/
theorem C9_write_read_roundtrip_witness :
    ∃ b', read_bundle parseManifestC9 parseAuditW parseChecksW hashC9 7
        (write_bundle renderManifestC9 renderAuditW renderChecksW
          bundleC9W) = some b'
      ∧ b'.manifest = bundleC9W.manifest
      ∧ b'.audit = bundleC9W.audit
      ∧ b'.checksums = bundleC9W.checksums
      ∧ ∀ pe ∈ bundleC9W.evidence,
          ∃ ev, lookupAssoc b'.evidence pe.1 = some ev
            ∧ ev.content_hash = pe.2.content_hash
            ∧ ev.content = pe.2.content
            ∧ ev.bundle_path = pe.1 :=
  C9_write_read_roundtrip renderManifestC9 parseManifestC9 renderAuditW
    parseAuditW renderChecksW parseChecksW hashC9 7 bundleC9W (by decide)
    (by decide) (by decide) (by decide) (by decide) (by decide) (by decide)
    (by decide)

/-! ### C3: the validate-bundle command's exit code
(`probe-cli/src/main.rs` lines 206–229, `bundle-schema/src/validation.rs`,
`probe-cli/src/bundle.rs` lines 123–156) -/

/-- `ValidationError` (`validation.rs` lines 11–36); the JSON/IO error
carriers are not produced on the modelled paths, and the formatted error
text is immaterial to every theorem below. -/
inductive ValidationError where
  | schema_error (msg : String)
  | missing_file (f : String)
  | checksum_mismatch (file expected actual : String)
  | invalid_evidence_ref (r : String)
  | decision_without_evidence (d : String)
  deriving Repr, DecidableEq

/-- `ValidationResult` (`validation.rs` lines 39–67). -/
structure ValidationResult where
  valid : Bool
  errors : List ValidationError
  warnings : List String
  deriving Repr, DecidableEq

/-- `ValidationResult::add_error` (`validation.rs` lines 54–57). -/
def ValidationResult.add_error (r : ValidationResult)
    (e : ValidationError) : ValidationResult :=
  { r with valid := false, errors := r.errors ++ [e] }

/-- The `schema_version` pattern of the manifest JSON schema,
`^\d+\.\d+\.\d+$` (`schema.rs` line 13; digits restricted to ASCII,
which all values in scope are). -/
def SEMVER_PATTERN : RE :=
  reSeqList [.bol, rePlus (.cls isAsciiDigit), reChar '.',
    rePlus (.cls isAsciiDigit), reChar '.',
    rePlus (.cls isAsciiDigit), .eol]

/-- `validate_manifest` (`validation.rs` lines 70–88), restricted to
documents serialised from the in-memory `Manifest` struct.  Such a
document always carries every required key with the right JSON type, so
of the schema's constraints (`schema.rs` lines 8–196) exactly two can
fail: the `schema_version` pattern and the `system.os_type` enum
(`format` annotations are not validated by the `jsonschema` crate as
configured). -/
def validate_manifest (m : Manifest) : ValidationResult :=
  let r : ValidationResult := ⟨true, [], []⟩
  let r := if !reIsMatch SEMVER_PATTERN m.schema_version then
      r.add_error (.schema_error "schema_version pattern") else r
  if !(["linux", "windows"].contains m.system.os_type) then
    r.add_error (.schema_error "os_type enum") else r

/-- `validate_bundle` (`validation.rs` lines 137–188): schema validation
of the manifest followed by the four evidence-reference scans; the
`checksums` argument is accepted but never used, as in the source. -/
def validate_bundle (m : Manifest) (evidence_files : List String)
    (checksums : List (String × String)) : ValidationResult :=
  let r := validate_manifest m
  let r := m.processes.foldl (fun r p =>
    match p.evidence_ref with
    | some er => if !evidence_files.contains er then
        r.add_error (.invalid_evidence_ref er) else r
    | none => r) r
  let r := m.services.foldl (fun r sv =>
    match sv.evidence_ref with
    | some er => if !evidence_files.contains er then
        r.add_error (.invalid_evidence_ref er) else r
    | none => r) r
  let r := m.ports.foldl (fun r port =>
    match port.evidence_ref with
    | some er => if !evidence_files.contains er then
        r.add_error (.invalid_evidence_ref er) else r
    | none => r) r
  m.config_files.foldl (fun r cf =>
    match cf.attachment_ref with
    | some ar => if !evidence_files.contains ar then
        r.add_error (.invalid_evidence_ref ar) else r
    | none => r) r

/-- `validate_bundle_file` (`bundle.rs` lines 123–156) applied to an
already-read bundle: `validate_bundle`, then, when requested, a checksum
comparison for every checksums entry whose path has an evidence item. -/
def validate_bundle_file (bundle : Bundle)
    (check_evidence verify_checksums : Bool) : ValidationResult :=
  let evidence_files := bundle.evidence.map Prod.fst
  let r := validate_bundle bundle.manifest evidence_files bundle.checksums
  if verify_checksums then
    bundle.checksums.foldl (fun r pc =>
      match lookupAssoc bundle.evidence pc.1 with
      | some ev => if ev.content_hash != pc.2 then
          r.add_error (.checksum_mismatch pc.1 pc.2 ev.content_hash) else r
      | none => r) r
  else r

/-- The `Commands::ValidateBundle` branch of `main`
(`main.rs` lines 206–229): only a read/validation *error* propagates via
`?` and makes the process exit non-zero through `anyhow`; when
`validate_bundle_file` returns a result — valid or not — the branch just
prints it and falls through to `Ok(())`, so the process exits 0. -/
def validateBundleCmdExit : Option ValidationResult → Nat
  | none => 1
  | some _ => 0

/-- A readable bundle violating three of the validated invariants: the
`os_type` enum (`"macos"`), a process `evidence_ref` that resolves to no
evidence file, and a checksum entry that disagrees with the stored
evidence hash. -/
def bundleC3 : Bundle :=
  { manifest :=
      { schema_version := "1.0.0", collection_id := "c3",
        system := { hostname := "h", os_type := "macos",
                    os_version := none, kernel_version := none,
                    architecture := none },
        processes :=
          [{ pid := 1, ppid := 0, user := "root", command := "a",
             args := [], full_cmdline := "a", working_directory := none,
             evidence_ref := some "evidence/missing" }],
        services := [], ports := [], config_files := [],
        environment_files := [] },
    audit := [], evidence := [("evidence/e1", evWrongHash)],
    checksums := [("evidence/e1", "#zzz")] }

/-- **C3.** The claim says validate-bundle exits non-zero exactly when a
schema, evidence-reference or checksum invariant fails.  In the code the
branch binds the result with `?` and then only prints it: every readable
bundle — `bundleC3` included, which fails schema validation, has a
dangling evidence reference, and fails checksum verification — yields
exit code 0.  Only an unreadable/unparseable bundle (the `none` case)
exits non-zero. -/
theorem C3_validate_bundle_always_exits_zero :
    (∀ r : ValidationResult, validateBundleCmdExit (some r) = 0)
    ∧ (validate_bundle_file bundleC3 true true).valid = false
    ∧ (validate_bundle_file bundleC3 true true).errors
      = [.schema_error "os_type enum",
         .invalid_evidence_ref "evidence/missing",
         .checksum_mismatch "evidence/e1" "#zzz" "deadbeef"]
    ∧ validateBundleCmdExit
        (some (validate_bundle_file bundleC3 true true)) = 0 :=
  ⟨fun _ => rfl, by decide, by decide, rfl⟩

end XCProbe
